import Mathlib

/-!
Verification of the vocalbridge message-send pipeline against its
natural-language specification.

The development shallowly embeds the TypeScript source:
pure functions become Lean functions over exact arithmetic
(JS numbers that hold integral values are modelled as `Nat`/`Int`,
monetary and fractional values as `ℚ`); the Prisma-backed store becomes
an explicit record of row lists threaded through each operation;
fallible code returns `Option`/`Except`-shaped results.  `Date.now()` /
`new Date()` clock reads are passed in explicitly, and `uuid`-based id
generation is modelled by a gensym counter carried in the store state.
-/

namespace VocalBridge

/-! ## Billing: `src/backend/src/billing/pricing.ts` -/

/-- Embeds the JS expression `Math.round(x)`: round to the nearest
integer, ties toward positive infinity. -/
def jsMathRound (x : ℚ) : ℤ := ⌊x + 1 / 2⌋

/-- Embeds `PRICING_TABLE[provider]?.usdPer1kTokens`: `vendorA` costs
0.002 and `vendorB` costs 0.003 USD per 1000 tokens; an unknown
provider has no entry (the source then throws). -/
def PRICING_TABLE (provider : String) : Option ℚ :=
  if provider = "vendorA" then some (2 / 1000)
  else if provider = "vendorB" then some (3 / 1000)
  else none

/-- Embeds `calculateCost` from `pricing.ts`: cost = round at six
decimals of `(tokensIn + tokensOut) / 1000 * rate`; `none` models the
`Unknown provider` throw. -/
def calculateCost (provider : String) (tokensIn tokensOut : Nat) : Option ℚ :=
  match PRICING_TABLE provider with
  | none => none
  | some rate =>
      let totalTokens : ℚ := (tokensIn : ℚ) + (tokensOut : ℚ)
      let costUsd : ℚ := totalTokens / 1000 * rate
      some ((jsMathRound (costUsd * 1000000) : ℚ) / 1000000)

/-- Modelled from the spec: `round6` is round-half-to-even at 6 decimal
places.  This definition follows the spec's words and is compared with
the source's `calculateCost` in claim C4. -/
def round6HalfEvenSpec (x : ℚ) : ℚ :=
  let y : ℚ := x * 1000000
  let n : ℤ := ⌊y⌋
  let r : ℤ :=
    if y - n < 1 / 2 then n
    else if (1 : ℚ) / 2 < y - n then n + 1
    else if Even n then n else n + 1
  (r : ℚ) / 1000000

/-! ## Retry policy: `src/backend/src/reliability/retryPolicy.ts` -/

/-- Embeds the `RetryConfig` interface. -/
structure RetryConfig where
  maxRetries : Nat
  initialBackoffMs : ℚ
  timeoutMs : Nat
deriving DecidableEq, Repr

/-- Embeds `DEFAULT_RETRY_CONFIG`: 2 retries (3 total attempts), 200 ms
initial backoff, 2000 ms per-attempt timeout. -/
def DEFAULT_RETRY_CONFIG : RetryConfig :=
  { maxRetries := 2, initialBackoffMs := 200, timeoutMs := 2000 }

/-- Embeds `calculateBackoff` from `retryPolicy.ts`.  `rand` is the
`Math.random()` draw, a value in `[0, 1)`.  If the provider supplied a
positive `retryAfterMs` it is returned as-is; otherwise the result is
`Math.floor(backoff + jitter)` with `backoff = initialBackoffMs * 2 ^
attempt` and `jitter = backoff * 0.1 * (rand * 2 - 1)`.  Note the
source applies no `maxBackoff` cap. -/
def calculateBackoff (attempt : Nat) (initialBackoffMs : ℚ)
    (retryAfterMs : Option ℚ) (rand : ℚ) : ℚ :=
  let exponential : ℚ :=
    let backoff := initialBackoffMs * 2 ^ attempt
    let jitter := backoff * (1 / 10) * (rand * 2 - 1)
    ((⌊backoff + jitter⌋ : ℤ) : ℚ)
  match retryAfterMs with
  | some r => if 0 < r then r else exponential
  | none => exponential

/-! ## SHA-256 (Node `crypto.createHash('sha256')`) and request
hashing: `src/backend/src/utils/hash.ts`

The SHA-256 compression function is the standard FIPS 180-4 algorithm,
modelled bit-faithfully over `Nat` with explicit masking at 2^32. -/

/-- 32-bit right rotation. -/
def rotr32 (x n : Nat) : Nat := ((x >>> n) ||| (x <<< (32 - n))) &&& 0xFFFFFFFF

/-- SHA-256 round constants. -/
def shaK : List Nat :=
  [1116352408, 1899447441, 3049323471, 3921009573, 961987163,
   1508970993, 2453635748, 2870763221, 3624381080, 310598401,
   607225278, 1426881987, 1925078388, 2162078206, 2614888103,
   3248222580, 3835390401, 4022224774, 264347078, 604807628,
   770255983, 1249150122, 1555081692, 1996064986, 2554220882,
   2821834349, 2952996808, 3210313671, 3336571891, 3584528711,
   113926993, 338241895, 666307205, 773529912, 1294757372,
   1396182291, 1695183700, 1986661051, 2177026350, 2456956037,
   2730485921, 2820302411, 3259730800, 3345764771, 3516065817,
   3600352804, 4094571909, 275423344, 430227734, 506948616,
   659060556, 883997877, 958139571, 1322822218, 1537002063,
   1747873779, 1955562222, 2024104815, 2227730452, 2361852424,
   2428436474, 2756734187, 3204031479, 3329325298]

/-- Word `i` of a schedule or block (0 when out of range). -/
def nth (l : List Nat) (i : Nat) : Nat := l.getD i 0

/-- Big sigma 0. -/
def bsig0 (x : Nat) : Nat := rotr32 x 2 ^^^ rotr32 x 13 ^^^ rotr32 x 22

/-- Big sigma 1. -/
def bsig1 (x : Nat) : Nat := rotr32 x 6 ^^^ rotr32 x 11 ^^^ rotr32 x 25

/-- Small sigma 0. -/
def ssig0 (x : Nat) : Nat := rotr32 x 7 ^^^ rotr32 x 18 ^^^ (x >>> 3)

/-- Small sigma 1. -/
def ssig1 (x : Nat) : Nat := rotr32 x 17 ^^^ rotr32 x 19 ^^^ (x >>> 10)

/-- UTF-8 encoding of one code point. -/
def utf8Bytes (c : Char) : List Nat :=
  let n := c.toNat
  if n < 0x80 then [n]
  else if n < 0x800 then
    [0xC0 ||| (n >>> 6), 0x80 ||| (n &&& 0x3F)]
  else if n < 0x10000 then
    [0xE0 ||| (n >>> 12), 0x80 ||| ((n >>> 6) &&& 0x3F), 0x80 ||| (n &&& 0x3F)]
  else
    [0xF0 ||| (n >>> 18), 0x80 ||| ((n >>> 12) &&& 0x3F),
     0x80 ||| ((n >>> 6) &&& 0x3F), 0x80 ||| (n &&& 0x3F)]

/-- UTF-8 bytes of a string. -/
def toBytesUTF8 (s : String) : List Nat :=
  s.data.foldr (fun c acc => utf8Bytes c ++ acc) []

/-- Big-endian 64-bit byte decomposition. -/
def be64 (n : Nat) : List Nat :=
  [(n >>> 56) &&& 255, (n >>> 48) &&& 255, (n >>> 40) &&& 255,
   (n >>> 32) &&& 255, (n >>> 24) &&& 255, (n >>> 16) &&& 255,
   (n >>> 8) &&& 255, n &&& 255]

/-- SHA-256 padding: append `0x80`, zero fill to 56 mod 64, then the
bit length as a big-endian 64-bit integer. -/
def padMessage (m : List Nat) : List Nat :=
  let zeros := (120 - (m.length + 1) % 64) % 64
  m ++ 0x80 :: (List.replicate zeros 0 ++ be64 (m.length * 8))

/-- Group bytes into big-endian 32-bit words. -/
def toWords : List Nat → List Nat
  | b0 :: b1 :: b2 :: b3 :: rest =>
      ((b0 <<< 24) ||| (b1 <<< 16) ||| (b2 <<< 8) ||| b3) :: toWords rest
  | _ => []

/-- Split a byte list into 64-byte chunks; the fuel argument (one unit
per chunk suffices, the byte count is passed) makes the recursion
structural so the definition evaluates by kernel reduction. -/
def chunks64Go : Nat → List Nat → List (List Nat)
  | 0, _ => []
  | _, [] => []
  | fuel + 1, a :: rest => ((a :: rest).take 64) :: chunks64Go fuel ((a :: rest).drop 64)

/-- Split a byte list into 64-byte chunks. -/
def chunks64 (l : List Nat) : List (List Nat) := chunks64Go l.length l

/-- One message-schedule extension step. -/
def extendStep (w : List Nat) : List Nat :=
  let len := w.length
  let newWord := (nth w (len - 16) + ssig0 (nth w (len - 15))
      + nth w (len - 7) + ssig1 (nth w (len - 2))) &&& 0xFFFFFFFF
  w ++ [newWord]

/-- Extend the 16-word block schedule by `n` more words. -/
def buildW : List Nat → Nat → List Nat
  | w, 0 => w
  | w, n + 1 => buildW (extendStep w) n

/-- SHA-256 working state. -/
structure Hash8 where
  a : Nat
  b : Nat
  c : Nat
  d : Nat
  e : Nat
  f : Nat
  g : Nat
  h : Nat
deriving DecidableEq, Repr

/-- One SHA-256 compression round. -/
def shaRound (s : Hash8) (kw : Nat × Nat) : Hash8 :=
  let S1 := bsig1 s.e
  let ch := (s.e &&& s.f) ^^^ ((s.e ^^^ 0xFFFFFFFF) &&& s.g)
  let temp1 := (s.h + S1 + ch + kw.1 + kw.2) &&& 0xFFFFFFFF
  let S0 := bsig0 s.a
  let maj := (s.a &&& s.b) ^^^ (s.a &&& s.c) ^^^ (s.b &&& s.c)
  let temp2 := (S0 + maj) &&& 0xFFFFFFFF
  ⟨(temp1 + temp2) &&& 0xFFFFFFFF, s.a, s.b, s.c,
   (s.d + temp1) &&& 0xFFFFFFFF, s.e, s.f, s.g⟩

/-- Process one 64-byte block. -/
def processBlock (hs : Hash8) (block : List Nat) : Hash8 :=
  let w := buildW (toWords block) 48
  let s := (shaK.zip w).foldl shaRound hs
  ⟨(hs.a + s.a) &&& 0xFFFFFFFF, (hs.b + s.b) &&& 0xFFFFFFFF,
   (hs.c + s.c) &&& 0xFFFFFFFF, (hs.d + s.d) &&& 0xFFFFFFFF,
   (hs.e + s.e) &&& 0xFFFFFFFF, (hs.f + s.f) &&& 0xFFFFFFFF,
   (hs.g + s.g) &&& 0xFFFFFFFF, (hs.h + s.h) &&& 0xFFFFFFFF⟩

/-- SHA-256 initial hash value. -/
def initialHash : Hash8 :=
  ⟨1779033703, 3144134277, 1013904242, 2773480762,
   1359893119, 2600822924, 528734635, 1541459225⟩

/-- SHA-256 of a byte list, as the final working state. -/
def sha256Words (msg : List Nat) : Hash8 :=
  (chunks64 (padMessage msg)).foldl processBlock initialHash

/-- Lower-case hexadecimal digit. -/
def hexNibble (n : Nat) : Char :=
  if n < 10 then Char.ofNat (48 + n) else Char.ofNat (87 + n)

/-- Eight hex digits of a 32-bit word. -/
def hex8 (n : Nat) : List Char :=
  [hexNibble ((n >>> 28) &&& 15), hexNibble ((n >>> 24) &&& 15),
   hexNibble ((n >>> 20) &&& 15), hexNibble ((n >>> 16) &&& 15),
   hexNibble ((n >>> 12) &&& 15), hexNibble ((n >>> 8) &&& 15),
   hexNibble ((n >>> 4) &&& 15), hexNibble (n &&& 15)]

/-- Hex rendering of the final state. -/
def hash8ToHex (s : Hash8) : String :=
  String.mk (hex8 s.a ++ hex8 s.b ++ hex8 s.c ++ hex8 s.d
    ++ hex8 s.e ++ hex8 s.f ++ hex8 s.g ++ hex8 s.h)

/-- Embeds Node's `createHash('sha256').update(s).digest('hex')`. -/
def createHashSha256Hex (s : String) : String :=
  hash8ToHex (sha256Words (toBytesUTF8 s))

/-- JSON string escaping of one character, as `JSON.stringify` does. -/
def jsonEscapeChar (c : Char) : List Char :=
  if c = '"' then ['\\', '"']
  else if c = '\\' then ['\\', '\\']
  else if c = '\x08' then ['\\', 'b']
  else if c = '\x0c' then ['\\', 'f']
  else if c = '\n' then ['\\', 'n']
  else if c = '\r' then ['\\', 'r']
  else if c = '\t' then ['\\', 't']
  else if c.toNat < 32 then
    ['\\', 'u', '0', '0', hexNibble ((c.toNat >>> 4) &&& 15), hexNibble (c.toNat &&& 15)]
  else [c]

/-- JSON string escaping, as `JSON.stringify` does for string values. -/
def jsonEscape (s : String) : String :=
  String.mk (s.data.foldr (fun c acc => jsonEscapeChar c ++ acc) [])

/-- Embeds the `JSON.stringify({tenantId, sessionId, content,
timestamp})` payload built inside `computeRequestHash`. -/
def stringifySendPayload (tenantId sessionId content timestamp : String) : String :=
  "\x7b\"tenantId\":\"" ++ jsonEscape tenantId
    ++ "\",\"sessionId\":\"" ++ jsonEscape sessionId
    ++ "\",\"content\":\"" ++ jsonEscape content
    ++ "\",\"timestamp\":\"" ++ jsonEscape timestamp ++ "\"\x7d"

/-- Embeds the JS expression `o || dflt` on an optional string: an
absent or empty (falsy) value falls back to the default. -/
def jsStringOr (o : Option String) (dflt : String) : String :=
  match o with
  | some s => if s = "" then dflt else s
  | none => dflt

/-- Embeds `computeRequestHash` from `hash.ts`.  `nowIso` is the
`new Date().toISOString()` clock reading taken when the timestamp field
is absent (or empty): the hashed payload includes it. -/
def computeRequestHash (tenantId sessionId content : String)
    (timestamp : Option String) (nowIso : String) : String :=
  createHashSha256Hex
    (stringifySendPayload tenantId sessionId content (jsStringOr timestamp nowIso))

/-! ## Provider types: `src/backend/src/providers/types.ts` -/

/-- Embeds the `ProviderError` class: message, HTTP status code, error
code and the optional rate-limit hold time. -/
structure ProviderError where
  message : String
  statusCode : Nat
  errorCode : String
  retryAfterMs : Option ℚ
deriving DecidableEq, Repr

/-- Embeds `ProviderError.isRetryable`: server errors (5xx) and rate
limits (429) are retryable. -/
def ProviderError.isRetryable (e : ProviderError) : Bool :=
  500 ≤ e.statusCode || e.statusCode == 429

/-- Embeds `NormalizedResponse`. -/
structure NormalizedResponse where
  text : String
  tokensIn : Nat
  tokensOut : Nat
  latencyMs : Nat
deriving DecidableEq, Repr

/-- Embeds one entry of `ProviderRequest.messages`. -/
structure ChatMessage where
  role : String
  content : String
deriving DecidableEq, Repr

/-- Embeds `ProviderRequest`. -/
structure ProviderRequest where
  systemPrompt : String
  messages : List ChatMessage
  enabledTools : List String
deriving DecidableEq, Repr

/-- The ways one `provider.call` under `withTimeout` can go: a
normalized response, a thrown `ProviderError`, the timeout wrapper
firing, or some other exception. -/
inductive FailKind where
  | thrown (e : ProviderError)
  | timedOut
  | other
deriving DecidableEq, Repr

/-- Outcome kind of one wrapped vendor call. -/
inductive CallResultKind where
  | ok (resp : NormalizedResponse)
  | fail (k : FailKind)
deriving DecidableEq, Repr

/-- Whether an outcome is a success. -/
def CallResultKind.isOk : CallResultKind → Bool
  | .ok _ => true
  | .fail _ => false

/-- One wrapped vendor call as observed by the retry engine: its
measured latency and its outcome. -/
structure AttemptOutcome where
  latencyMs : Nat
  result : CallResultKind
deriving DecidableEq, Repr

/-- A vendor adapter, abstracted over the (mock) vendor behaviour: the
adapter's name plus the outcome of its `i`-th call within one retry
run.  The retry engine never inspects the request, so the oracle takes
only the attempt index. -/
structure AdapterModel where
  name : String
  outcomes : Nat → AttemptOutcome

/-- Embeds the error conversion in `callProviderWithRetry`: a thrown
`ProviderError` is kept; a timeout was already synthesized by
`withTimeout` as `{504, TIMEOUT}`; anything else becomes
`{500, UNKNOWN_ERROR}`. -/
def failKindToProviderError (providerName : String) (cfg : RetryConfig) :
    FailKind → ProviderError
  | .thrown e => e
  | .timedOut =>
      ⟨"Provider " ++ providerName ++ " timed out after "
        ++ toString cfg.timeoutMs ++ "ms", 504, "TIMEOUT", none⟩
  | .other => ⟨"Unknown error", 500, "UNKNOWN_ERROR", none⟩

/-- Embeds `isRetryableError` from `retryPolicy.ts` as applied inside
the retry loop, where the error has already been converted to a
`ProviderError`. -/
def isRetryableError (e : ProviderError) : Bool := e.isRetryable

/-- Embeds `getRetryAfter` from `retryPolicy.ts`. -/
def getRetryAfter (e : ProviderError) : Option ℚ := e.retryAfterMs

/-! ## Store rows and envelope shapes

`Date` values are modelled as `Nat` instants; JSON-serialized columns
(`enabledToolsJson`, `responseJson`) are modelled by the decoded values
they round-trip to, since the source only ever writes
`JSON.stringify`-ed values and reads them back with `JSON.parse`. -/

/-- Attempt status union `'success' | 'failed'`. -/
inductive AttemptStatus where
  | success
  | failed
deriving DecidableEq, Repr

/-- Embeds `ProviderCallAttempt` from `providerCaller.ts`. -/
structure ProviderCallAttempt where
  provider : String
  status : AttemptStatus
  httpStatus : Option Nat
  latencyMs : Nat
  retries : Nat
  errorCode : Option String
  errorMessage : Option String
deriving DecidableEq, Repr

/-- Envelope attempt entry (the response maps `ProviderCallAttempt`
dropping `errorMessage`). -/
structure EnvelopeAttempt where
  provider : String
  status : AttemptStatus
  httpStatus : Option Nat
  latencyMs : Nat
  retries : Nat
  errorCode : Option String
deriving DecidableEq, Repr

/-- Envelope `message` block. -/
structure EnvelopeMessage where
  id : String
  sessionId : String
  role : String
  content : String
  createdAt : Nat
deriving DecidableEq, Repr

/-- Envelope `usage.pricing` block. -/
structure PricingMeta where
  usdPer1kTokens : ℚ
deriving DecidableEq, Repr

/-- Envelope `usage` block. -/
structure UsageMeta where
  tokensIn : Nat
  tokensOut : Nat
  costUsd : ℚ
  pricing : PricingMeta
deriving DecidableEq, Repr

/-- Envelope `idempotency` block. -/
structure IdemMeta where
  key : String
  replayed : Bool
deriving DecidableEq, Repr

/-- Envelope `metadata` block of `SendMessageResponse`. -/
structure EnvelopeMetadata where
  agentId : String
  providerUsed : String
  primaryAttempted : String
  fallbackAttempted : Option String
  fallbackUsed : Bool
  attempts : List EnvelopeAttempt
  usage : UsageMeta
  idempotency : IdemMeta
  requestId : String
deriving DecidableEq, Repr

/-- Embeds the `SendMessageResponse` envelope of
`ConversationService.ts`. -/
structure SendMessageResponse where
  message : EnvelopeMessage
  metadata : EnvelopeMetadata
deriving DecidableEq, Repr

/-- Agent row (Prisma `Agent`). -/
structure AgentRow where
  id : String
  tenantId : String
  name : String
  primaryProvider : String
  fallbackProvider : Option String
  systemPrompt : String
  enabledToolsJson : List String
  createdAt : Nat
deriving DecidableEq, Repr

/-- Session row (Prisma `Session`). -/
structure SessionRow where
  id : String
  tenantId : String
  agentId : String
  customerId : String
  status : String
  metadataJson : String
  createdAt : Nat
  lastActivityAt : Nat
deriving DecidableEq, Repr

/-- Message row (Prisma `Message`). -/
structure MessageRow where
  id : String
  tenantId : String
  sessionId : String
  role : String
  content : String
  createdAt : Nat
deriving DecidableEq, Repr

/-- Provider call event row (Prisma `ProviderCallEvent`). -/
structure ProviderCallEventRow where
  id : String
  tenantId : String
  sessionId : String
  agentId : String
  provider : String
  status : AttemptStatus
  httpStatus : Option Nat
  latencyMs : Option Nat
  retries : Nat
  errorCode : Option String
  errorMessage : Option String
  requestId : String
  createdAt : Nat
deriving DecidableEq, Repr

/-- Usage event row (Prisma `UsageEvent`). -/
structure UsageEventRow where
  id : String
  tenantId : String
  sessionId : String
  agentId : String
  provider : String
  tokensIn : Nat
  tokensOut : Nat
  costUsd : ℚ
  requestId : String
  createdAt : Nat
deriving DecidableEq, Repr

/-- Idempotency record row (Prisma `IdempotencyRecord`). -/
structure IdemRow where
  id : String
  tenantId : String
  scope : String
  idempotencyKey : String
  sessionId : Option String
  requestHash : String
  responseJson : Option SendMessageResponse
  createdAt : Nat
deriving DecidableEq, Repr

/-- The tenant-scoped store: one list per table, in insertion order,
plus a gensym counter modelling the uuid-based id generators of
`utils/ids.ts` (the claims depend only on freshness, not id shape). -/
structure DB where
  agents : List AgentRow
  sessions : List SessionRow
  messages : List MessageRow
  providerCallEvents : List ProviderCallEventRow
  usageEvents : List UsageEventRow
  idempotencyRecords : List IdemRow
  gensym : Nat
deriving DecidableEq, Repr

/-- Ambient effects of one send: the `Date.now()` instant, the
`toISOString()` clock reading used by `computeRequestHash`, and the
vendor behaviour oracle keyed by provider name and attempt index. -/
structure Env where
  now : Nat
  nowIso : String
  oracle : String → Nat → AttemptOutcome

/-- Logging context threaded to the attempt persistence
(`tenantId, sessionId, agentId, requestId` of `providerCaller.ts`),
plus the clock instant rows are stamped with. -/
structure CallContext where
  tenantId : String
  sessionId : String
  agentId : String
  requestId : String
  now : Nat
deriving DecidableEq, Repr

/-- Fresh id from the gensym counter (models `generateId(prefix)`). -/
def generateId (tag : String) (db : DB) : String × DB :=
  (tag ++ toString db.gensym, { db with gensym := db.gensym + 1 })

/-- Models `generateMessageId`. -/
def generateMessageId (db : DB) : String × DB := generateId "msg_" db

/-- Models `generateIdempotencyId`. -/
def generateIdempotencyId (db : DB) : String × DB := generateId "idem_" db

/-- Models `generateEventId`. -/
def generateEventId (db : DB) : String × DB := generateId "evt_" db

/-! ## Repositories

Each repository function mirrors the Prisma query of the corresponding
source file: `find?` models `findUnique`/`findFirst`, `filter` models
`findMany` with a `where` clause, appending models `create`, and
mapping over matching rows models `update`. -/

/-- The composite unique key `(tenantId, scope, idempotencyKey)`. -/
def IdempotencyRepo.matchesKey (tenantId scope key : String) (r : IdemRow) : Bool :=
  r.tenantId == tenantId && r.scope == scope && r.idempotencyKey == key

/-- Embeds `IdempotencyRepo.lookup`. -/
def IdempotencyRepo.lookup (tenantId scope key : String) (db : DB) : Option IdemRow :=
  db.idempotencyRecords.find? (IdempotencyRepo.matchesKey tenantId scope key)

/-- Embeds `CreateIdempotencyRecordData`. -/
structure CreateIdempotencyRecordData where
  id : String
  tenantId : String
  scope : String
  idempotencyKey : String
  sessionId : Option String
  requestHash : String
deriving DecidableEq, Repr

/-- Embeds `IdempotencyRepo.create`: insert a placeholder with null
response; on a unique-key violation the source catches `P2002`,
re-looks-up and returns the existing record, which collapses here to
checking existence first. -/
def IdempotencyRepo.create (data : CreateIdempotencyRecordData) (now : Nat)
    (db : DB) : IdemRow × DB :=
  match IdempotencyRepo.lookup data.tenantId data.scope data.idempotencyKey db with
  | some existing => (existing, db)
  | none =>
      let row : IdemRow :=
        ⟨data.id, data.tenantId, data.scope, data.idempotencyKey,
         data.sessionId, data.requestHash, none, now⟩
      (row, { db with idempotencyRecords := db.idempotencyRecords ++ [row] })

/-- Embeds `IdempotencyRepo.updateResponse` (update by the composite
unique key, which includes the tenant). -/
def IdempotencyRepo.updateResponse (tenantId scope key : String)
    (resp : SendMessageResponse) (db : DB) : DB :=
  { db with idempotencyRecords := db.idempotencyRecords.map fun r =>
      if IdempotencyRepo.matchesKey tenantId scope key r
      then { r with responseJson := some resp } else r }

/-- Embeds `SessionRepo.findById` (`findFirst where {id, tenantId}`). -/
def SessionRepo.findById (tenantId sessionId : String) (db : DB) : Option SessionRow :=
  db.sessions.find? fun s => s.id == sessionId && s.tenantId == tenantId

/-- Embeds `SessionRepo.updateLastActivity`: `update where {id}` — the
`where` clause carries no tenant filter. -/
def SessionRepo.updateLastActivity (sessionId : String) (now : Nat) (db : DB) : DB :=
  { db with sessions := db.sessions.map fun s =>
      if s.id == sessionId then { s with lastActivityAt := now } else s }

/-- Embeds `AgentRepo.findById` (`findFirst where {id, tenantId}`). -/
def AgentRepo.findById (tenantId agentId : String) (db : DB) : Option AgentRow :=
  db.agents.find? fun a => a.id == agentId && a.tenantId == tenantId

/-- Embeds `MessageRepo.create`. -/
def MessageRepo.create (id tenantId sessionId role content : String) (now : Nat)
    (db : DB) : MessageRow × DB :=
  let row : MessageRow := ⟨id, tenantId, sessionId, role, content, now⟩
  (row, { db with messages := db.messages ++ [row] })

/-- Embeds `MessageRepo.listBySession` (`findMany where {tenantId,
sessionId} orderBy createdAt asc`); the store appends messages in
creation order, so the filtered list is already ascending. -/
def MessageRepo.listBySession (tenantId sessionId : String) (db : DB) : List MessageRow :=
  db.messages.filter fun m => m.tenantId == tenantId && m.sessionId == sessionId

/-- Embeds `UsageEventRepo.create`. -/
def UsageEventRepo.create (row : UsageEventRow) (db : DB) : DB :=
  { db with usageEvents := db.usageEvents ++ [row] }

/-- Embeds `ProviderCallEventRepo.create`. -/
def ProviderCallEventRepo.create (row : ProviderCallEventRow) (db : DB) : DB :=
  { db with providerCallEvents := db.providerCallEvents ++ [row] }

/-! ## Retry engine and fallback orchestrator:
`src/backend/src/reliability/providerCaller.ts` -/

/-- Embeds `ProviderCallResult`. -/
structure ProviderCallResult where
  success : Bool
  response : Option NormalizedResponse
  error : Option ProviderError
  attempts : List ProviderCallAttempt
  providerUsed : String
  fallbackUsed : Bool
deriving DecidableEq, Repr

/-- The successful attempt record pushed by the retry loop. -/
def successAttempt (providerName : String) (latencyMs retries : Nat) :
    ProviderCallAttempt :=
  ⟨providerName, .success, some 200, latencyMs, retries, none, none⟩

/-- The failed attempt record pushed by the retry loop. -/
def failedAttempt (providerName : String) (e : ProviderError)
    (latencyMs retries : Nat) : ProviderCallAttempt :=
  ⟨providerName, .failed, some e.statusCode, latencyMs, retries,
   some e.errorCode, some e.message⟩

/-- The `ProviderCallEvent` row the loop persists for one attempt. -/
def attemptEventRow (ctx : CallContext) (id : String) (att : ProviderCallAttempt) :
    ProviderCallEventRow :=
  ⟨id, ctx.tenantId, ctx.sessionId, ctx.agentId, att.provider, att.status,
   att.httpStatus, some att.latencyMs, att.retries, att.errorCode,
   att.errorMessage, ctx.requestId, ctx.now⟩

/-- Embeds the per-attempt `ProviderCallEventRepo.create` call. -/
def persistAttempt (ctx : CallContext) (att : ProviderCallAttempt) (db : DB) : DB :=
  let idDb := generateEventId db
  ProviderCallEventRepo.create (attemptEventRow ctx idDb.1 att) idDb.2

/-- Embeds the `for attempt in 0..maxRetries` loop of
`callProviderWithRetry`.  `base` is the current attempt index and
`fuel = maxRetries + 1 - base` bounds the iterations (the `fuel = 0`
case is unreachable from the top-level entry).  The inter-attempt
`sleep(calculateBackoff(...))` changes no modelled state and is
elided; `calculateBackoff` itself is verified separately. -/
def retryGo (p : AdapterModel) (cfg : RetryConfig) (ctx : CallContext) :
    Nat → Nat → DB → ProviderCallResult × DB
  | _, 0, db => (⟨false, none, none, [], p.name, false⟩, db)
  | base, fuel + 1, db =>
      let oc := p.outcomes base
      match oc.result with
      | .ok resp =>
          let att := successAttempt p.name oc.latencyMs base
          let db := persistAttempt ctx att db
          (⟨true, some resp, none, [att], p.name, false⟩, db)
      | .fail fk =>
          let e := failKindToProviderError p.name cfg fk
          let att := failedAttempt p.name e oc.latencyMs base
          let db := persistAttempt ctx att db
          if base < cfg.maxRetries && isRetryableError e then
            let r := retryGo p cfg ctx (base + 1) fuel db
            ({ r.1 with attempts := att :: r.1.attempts }, r.2)
          else
            (⟨false, none, some e, [att], p.name, false⟩, db)

/-- Embeds `callProviderWithRetry`. -/
def callProviderWithRetry (p : AdapterModel) (req : ProviderRequest)
    (cfg : RetryConfig) (ctx : CallContext) (db : DB) : ProviderCallResult × DB :=
  retryGo p cfg ctx 0 (cfg.maxRetries + 1) db

/-- Embeds `callProviderWithFallback`. -/
def callProviderWithFallback (primary : AdapterModel) (fallback : Option AdapterModel)
    (req : ProviderRequest) (cfg : RetryConfig) (ctx : CallContext) (db : DB) :
    ProviderCallResult × DB :=
  let pr := callProviderWithRetry primary req cfg ctx db
  if pr.1.success then pr
  else
    match fallback with
    | some f =>
        let fr := callProviderWithRetry f req cfg ctx pr.2
        ({ fr.1 with
            attempts := pr.1.attempts ++ fr.1.attempts
            fallbackUsed := true }, fr.2)
    | none => pr

/-! ## Conversation pipeline:
`src/backend/src/services/ConversationService.ts` -/

/-- The structured errors `sendMessage` can throw
(`utils/errors.ts` factories; `unknownProvider` models the plain
`Error` thrown by `getProviderAdapter`/`calculateCost`). -/
inductive SendError where
  | idempotencyKeyRequired
  | sessionNotFound (sessionId : String)
  | agentNotFound (agentId : String)
  | allProvidersFailed (primary : String) (fallback : Option String)
      (attempts : List ProviderCallAttempt)
  | unknownProvider (provider : String)
deriving DecidableEq, Repr

/-- Result of one `sendMessage` call: the returned envelope or the
thrown error. -/
inductive SendOutcome where
  | ok (resp : SendMessageResponse)
  | err (e : SendError)
deriving DecidableEq, Repr

/-- Whether a send returned an envelope. -/
def SendOutcome.isOk : SendOutcome → Bool
  | .ok _ => true
  | .err _ => false

/-- Embeds `getProviderAdapter` of `ConversationService.ts`; `none`
models the `Unknown provider` throw. -/
def getProviderAdapter (oracle : String → Nat → AttemptOutcome)
    (providerName : String) : Option AdapterModel :=
  if providerName == "vendorA" || providerName == "vendorB"
  then some ⟨providerName, oracle providerName⟩ else none

/-- Embeds `agent.fallbackProvider ? getProviderAdapter(...) : null`
(the empty string is falsy in JS). -/
def resolveFallbackAdapter (oracle : String → Nat → AttemptOutcome) :
    Option String → Except String (Option AdapterModel)
  | none => .ok none
  | some nm =>
      if nm = "" then .ok none
      else
        match getProviderAdapter oracle nm with
        | some a => .ok (some a)
        | none => .error nm

/-- Embeds `storedResponse.metadata.idempotency.replayed = true` on a
replayed envelope. -/
def markReplayed (r : SendMessageResponse) : SendMessageResponse :=
  { r with metadata :=
      { r.metadata with idempotency :=
          { r.metadata.idempotency with replayed := true } } }

/-- The envelope's per-attempt projection (drops `errorMessage`). -/
def toEnvelopeAttempt (a : ProviderCallAttempt) : EnvelopeAttempt :=
  ⟨a.provider, a.status, a.httpStatus, a.latencyMs, a.retries, a.errorCode⟩

/-- Embeds the inline `providerUsed === 'vendorA' ? 0.002 : 0.003`. -/
def usdPer1k (providerUsed : String) : ℚ :=
  if providerUsed == "vendorA" then 2 / 1000 else 3 / 1000

/-- Steps 8–11 of `sendMessage`: persist the assistant message, create
the usage event, build the envelope, complete the idempotency record. -/
def sendMessageComplete (tenantId sessionId key requestId : String) (env : Env)
    (db : DB) (agent : AgentRow) (providerResult : ProviderCallResult)
    (resp : NormalizedResponse) : SendOutcome × DB :=
  let aId := generateMessageId db
  let aDb := MessageRepo.create aId.1 tenantId sessionId "assistant" resp.text env.now aId.2
  let assistantMessage := aDb.1
  match calculateCost providerResult.providerUsed resp.tokensIn resp.tokensOut with
  | none => (.err (.unknownProvider providerResult.providerUsed), aDb.2)
  | some cost =>
      let eId := generateEventId aDb.2
      let db3 := UsageEventRepo.create
        ⟨eId.1, tenantId, sessionId, agent.id, providerResult.providerUsed,
         resp.tokensIn, resp.tokensOut, cost, requestId, env.now⟩ eId.2
      let envl : SendMessageResponse :=
        { message := ⟨assistantMessage.id, assistantMessage.sessionId,
            assistantMessage.role, assistantMessage.content,
            assistantMessage.createdAt⟩,
          metadata :=
            { agentId := agent.id,
              providerUsed := providerResult.providerUsed,
              primaryAttempted := agent.primaryProvider,
              fallbackAttempted := agent.fallbackProvider,
              fallbackUsed := providerResult.fallbackUsed,
              attempts := providerResult.attempts.map toEnvelopeAttempt,
              usage := ⟨resp.tokensIn, resp.tokensOut, cost,
                ⟨usdPer1k providerResult.providerUsed⟩⟩,
              idempotency := ⟨key, false⟩,
              requestId := requestId } }
      let db4 := IdempotencyRepo.updateResponse tenantId "send_message" key envl db3
      (.ok envl, db4)

/-- Steps 4–9 of `sendMessage`, from the user-message append through
the provider call: on total provider failure throws
`ALL_PROVIDERS_FAILED` with the primary vendor, the fallback vendor and
the collected attempts, leaving the user message and attempt rows in
place and the idempotency record incomplete. -/
def sendMessageWithAgent (tenantId sessionId key content requestId : String)
    (env : Env) (db : DB) (session : SessionRow) (agent : AgentRow) :
    SendOutcome × DB :=
  let mId := generateMessageId db
  let userDb := MessageRepo.create mId.1 tenantId sessionId "user" content env.now mId.2
  let db1 := SessionRepo.updateLastActivity sessionId env.now userDb.2
  let previousMessages := MessageRepo.listBySession tenantId sessionId db1
  let conversationHistory : ProviderRequest :=
    { systemPrompt := agent.systemPrompt,
      messages := previousMessages.map fun m => ⟨m.role, m.content⟩,
      enabledTools := agent.enabledToolsJson }
  match getProviderAdapter env.oracle agent.primaryProvider with
  | none => (.err (.unknownProvider agent.primaryProvider), db1)
  | some primaryProvider =>
      match resolveFallbackAdapter env.oracle agent.fallbackProvider with
      | .error nm => (.err (.unknownProvider nm), db1)
      | .ok fallbackProvider =>
          let ctx : CallContext := ⟨tenantId, sessionId, agent.id, requestId, env.now⟩
          let callDb := callProviderWithFallback primaryProvider fallbackProvider
            conversationHistory DEFAULT_RETRY_CONFIG ctx db1
          let providerResult := callDb.1
          let db2 := callDb.2
          if providerResult.success = false then
            (.err (.allProvidersFailed agent.primaryProvider agent.fallbackProvider
              providerResult.attempts), db2)
          else
            match providerResult.response with
            | none =>
                (.err (.allProvidersFailed agent.primaryProvider agent.fallbackProvider
                  providerResult.attempts), db2)
            | some resp =>
                sendMessageComplete tenantId sessionId key requestId env db2 agent
                  providerResult resp

/-- Steps 2–3 of `sendMessage`: create the idempotency placeholder
(replaying if a concurrent request already completed) and validate the
session and agent. -/
def sendMessageCore (tenantId sessionId key content requestId : String)
    (env : Env) (db : DB) : SendOutcome × DB :=
  let requestHash := computeRequestHash tenantId sessionId content none env.nowIso
  let iId := generateIdempotencyId db
  let recDb := IdempotencyRepo.create
    ⟨iId.1, tenantId, "send_message", key, some sessionId, requestHash⟩ env.now iId.2
  match recDb.1.responseJson with
  | some stored => (.ok (markReplayed stored), recDb.2)
  | none =>
      match SessionRepo.findById tenantId sessionId recDb.2 with
      | none => (.err (.sessionNotFound sessionId), recDb.2)
      | some session =>
          match AgentRepo.findById tenantId session.agentId recDb.2 with
          | none => (.err (.agentNotFound session.agentId), recDb.2)
          | some agent =>
              sendMessageWithAgent tenantId sessionId key content requestId env
                recDb.2 session agent

/-- Embeds `sendMessage` of `ConversationService.ts`.  Note the step-1
lookup: a record found with a *null* response falls through to the
normal pipeline (no conflict is raised). -/
def sendMessage (tenantId sessionId : String) (idempotencyKey : Option String)
    (content requestId : String) (env : Env) (db : DB) : SendOutcome × DB :=
  match idempotencyKey with
  | none => (.err .idempotencyKeyRequired, db)
  | some key =>
      if key = "" then (.err .idempotencyKeyRequired, db)
      else
        match IdempotencyRepo.lookup tenantId "send_message" key db with
        | some existingRecord =>
            match existingRecord.responseJson with
            | some stored => (.ok (markReplayed stored), db)
            | none => sendMessageCore tenantId sessionId key content requestId env db
        | none => sendMessageCore tenantId sessionId key content requestId env db

/-! ## Concrete fixtures used to evaluate the pipeline at specific
inputs (witnesses and counterexamples). -/

/-- Default attempt record used with `List.getD` when indexing attempt
lists. -/
def dfltAttempt : ProviderCallAttempt := ⟨"", .failed, none, 0, 0, none, none⟩

/-- A vendor that always succeeds with a 100-in/200-out token reply. -/
def oracleAlwaysOk : String → Nat → AttemptOutcome :=
  fun _ _ => ⟨5, .ok ⟨"reply", 100, 200, 5⟩⟩

/-- A vendor that always fails with a retryable 503. -/
def oracleAlwaysFail503 : String → Nat → AttemptOutcome :=
  fun _ _ => ⟨5, .fail (.thrown ⟨"boom", 503, "SERVER_ERROR", none⟩)⟩

/-- One tenant `t1` with agent `a1` (primary `vendorA`, no fallback)
and session `s1`; empty message, event and idempotency tables. -/
def fixtureDb : DB :=
  { agents := [⟨"a1", "t1", "Agent", "vendorA", none, "sys", [], 0⟩],
    sessions := [⟨"s1", "t1", "a1", "cust", "active", "", 0, 0⟩],
    messages := [], providerCallEvents := [], usageEvents := [],
    idempotencyRecords := [], gensym := 0 }

/-- Environment with the always-succeeding vendor. -/
def fixtureEnvOk : Env := ⟨10, "2024-01-01T00:00:00.000Z", oracleAlwaysOk⟩

/-- Environment with the always-failing vendor. -/
def fixtureEnvFail : Env := ⟨10, "2024-01-01T00:00:00.000Z", oracleAlwaysFail503⟩

/-- `fixtureDb` with a mid-flight idempotency record for key `K`: the
placeholder exists and its response is still null. -/
def fixtureDbMidFlight : DB :=
  { fixtureDb with idempotencyRecords :=
      [⟨"idem_x", "t1", "send_message", "K", some "s1", "h", none, 0⟩] }

/-- A stored (completed) response envelope for key `K`. -/
def fixtureStoredEnvelope : SendMessageResponse :=
  { message := ⟨"msg_1", "s1", "assistant", "reply", 1⟩,
    metadata :=
      { agentId := "a1", providerUsed := "vendorA", primaryAttempted := "vendorA",
        fallbackAttempted := none, fallbackUsed := false,
        attempts := [⟨"vendorA", .success, some 200, 5, 0, none⟩],
        usage := ⟨100, 200, 3 / 5000, ⟨2 / 1000⟩⟩,
        idempotency := ⟨"K", false⟩, requestId := "req1" } }

/-- `fixtureDb` with a completed idempotency record for key `K`. -/
def fixtureDbCompleted : DB :=
  { fixtureDb with idempotencyRecords :=
      [⟨"idem_x", "t1", "send_message", "K", some "s1", "h",
        some fixtureStoredEnvelope, 0⟩] }

/-- A vendor that always fails with a non-retryable 400. -/
def oracleAlwaysFail400 : String → Nat → AttemptOutcome :=
  fun _ _ => ⟨5, .fail (.thrown ⟨"bad", 400, "BAD_REQUEST", none⟩)⟩

/-- `vendorA` adapter that always fails with a retryable 503. -/
def fixtureAdapterFailA : AdapterModel := ⟨"vendorA", oracleAlwaysFail503 "vendorA"⟩

/-- `vendorA` adapter that always fails with a non-retryable 400. -/
def fixtureAdapter400A : AdapterModel := ⟨"vendorA", oracleAlwaysFail400 "vendorA"⟩

/-- `vendorB` adapter that always succeeds. -/
def fixtureAdapterOkB : AdapterModel := ⟨"vendorB", oracleAlwaysOk "vendorB"⟩

/-- A trivial normalized request. -/
def fixtureReq : ProviderRequest := ⟨"sys", [], []⟩

/-- A concrete call context. -/
def fixtureCtx : CallContext := ⟨"t1", "s1", "a1", "req1", 10⟩

/-- Default session row used with `List.getD`. -/
def dfltSession : SessionRow := ⟨"", "", "", "", "", "", 0, 0⟩

/-- A store whose only session belongs to tenant `t2`. -/
def dbOtherTenant : DB :=
  { agents := [], sessions := [⟨"s1", "t2", "a9", "c", "active", "", 0, 0⟩],
    messages := [], providerCallEvents := [], usageEvents := [],
    idempotencyRecords := [], gensym := 0 }

/-- All rows present in `dbF` but not already in `db` belong to
`tenantId` (and the read-only agents table is untouched): the write
set of one operation is scoped to the calling tenant. -/
def writesScoped (tenantId : String) (db dbF : DB) : Prop :=
  (∀ m ∈ dbF.messages, m ∈ db.messages ∨ m.tenantId = tenantId)
  ∧ (∀ u ∈ dbF.usageEvents, u ∈ db.usageEvents ∨ u.tenantId = tenantId)
  ∧ (∀ e ∈ dbF.providerCallEvents, e ∈ db.providerCallEvents ∨ e.tenantId = tenantId)
  ∧ (∀ r ∈ dbF.idempotencyRecords, r ∈ db.idempotencyRecords ∨ r.tenantId = tenantId)
  ∧ (∀ s ∈ dbF.sessions, s ∈ db.sessions ∨ s.tenantId = tenantId)
  ∧ dbF.agents = db.agents

end VocalBridge

namespace VocalBridge

/-! ## Claim C4 -/

/-- Auxiliary: `jsMathRound` is the identity on integers. -/
theorem jsMathRound_intCast (n : ℤ) : jsMathRound (n : ℚ) = n := by
  unfold jsMathRound
  rw [Int.floor_int_add]
  norm_num

/-- Auxiliary: the spec's round-half-to-even at six decimals is the
identity on rationals that are already exact multiples of `10⁻⁶`. -/
theorem round6HalfEvenSpec_of_int (x : ℚ) (n : ℤ) (h : x * 1000000 = n) :
    round6HalfEvenSpec x = (n : ℚ) / 1000000 := by
  unfold round6HalfEvenSpec
  rw [h]
  norm_num

/-- Auxiliary: `⌊x + 1/2⌋ = n` once `x` is known to be the integer `n`. -/
theorem floor_add_half_eq (x : ℚ) (n : ℤ) (h : x = n) : ⌊x + 1 / 2⌋ = n := by
  subst h
  rw [Int.floor_int_add]
  norm_num

/-- Auxiliary: `jsMathRound` at a value known to be the integer `n`. -/
theorem jsMathRound_eq_int (x : ℚ) (n : ℤ) (h : x = n) : jsMathRound x = n :=
  floor_add_half_eq x n h

/-- C4: for both vendors and all token counts, `calculateCost` equals
the spec's formula `round6((tokensIn + tokensOut) / 1000 * rate)` with
round-half-to-even at six decimals (rates 0.002 and 0.003 USD per 1000
tokens); the rounding never meets a tie because the product is always
an exact multiple of `10⁻⁶`. -/
theorem claimC4_calculateCost_round6 (tIn tOut : Nat) :
    calculateCost "vendorA" tIn tOut
      = some (round6HalfEvenSpec (((tIn : ℚ) + (tOut : ℚ)) / 1000 * (2 / 1000)))
    ∧ calculateCost "vendorB" tIn tOut
      = some (round6HalfEvenSpec (((tIn : ℚ) + (tOut : ℚ)) / 1000 * (3 / 1000))) := by
  have hA : ((tIn : ℚ) + (tOut : ℚ)) / 1000 * (2 / 1000) * 1000000
      = ((2 * (tIn + tOut : ℕ) : ℤ) : ℚ) := by push_cast; ring
  have hB : ((tIn : ℚ) + (tOut : ℚ)) / 1000 * (3 / 1000) * 1000000
      = ((3 * (tIn + tOut : ℕ) : ℤ) : ℚ) := by push_cast; ring
  have eA : calculateCost "vendorA" tIn tOut
      = some ((jsMathRound (((tIn : ℚ) + (tOut : ℚ)) / 1000 * (2 / 1000) * 1000000) : ℚ)
          / 1000000) := rfl
  have eB : calculateCost "vendorB" tIn tOut
      = some ((jsMathRound (((tIn : ℚ) + (tOut : ℚ)) / 1000 * (3 / 1000) * 1000000) : ℚ)
          / 1000000) := rfl
  constructor
  · rw [round6HalfEvenSpec_of_int _ _ hA, eA, jsMathRound_eq_int _ _ hA]
  · rw [round6HalfEvenSpec_of_int _ _ hB, eB, jsMathRound_eq_int _ _ hB]

/-! ## Claim C7 -/

/-- C7 counterexample: at retry index 6 with base backoff 200 ms and a
jitter draw of 1/2 (zero jitter), `calculateBackoff` returns 12800 ms,
which exceeds the claimed bound `1.1 * min(10 s, 0.2 s * 2^6) = 11000`
ms: the source applies no `maxBackoff` cap. -/
theorem claimC7_counterexample :
    calculateBackoff 6 200 none (1 / 2) = 12800
    ∧ ¬ calculateBackoff 6 200 none (1 / 2)
        ≤ 11 / 10 * min 10000 (200 * 2 ^ 6) := by
  have h : calculateBackoff 6 200 none (1 / 2) = 12800 := by
    unfold calculateBackoff
    norm_num
  refine ⟨h, ?_⟩
  rw [h]
  norm_num

/-- C7 amended: the retryAfter passthrough holds as claimed, but the
exponential branch is uncapped: for base backoff 200 ms and any jitter
draw in `[0, 1)`, the wait lies in `[0.9, 1.1] * (200 * 2^i)` with no
`min(10 s, ·)` cap applied. -/
theorem claimC7_amended_backoff_bounds (i : Nat) (rand : ℚ)
    (h0 : 0 ≤ rand) (h1 : rand < 1) :
    (∀ r : ℚ, 0 < r → calculateBackoff i 200 (some r) rand = r)
    ∧ 9 / 10 * (200 * 2 ^ i) ≤ calculateBackoff i 200 none rand
    ∧ calculateBackoff i 200 none rand ≤ 11 / 10 * (200 * 2 ^ i) := by
  have hb : (0 : ℚ) < 200 * 2 ^ i := by positivity
  refine ⟨?_, ?_, ?_⟩
  · intro r hr
    unfold calculateBackoff
    simp [hr]
  · unfold calculateBackoff
    have hle : ((180 * 2 ^ i : ℤ) : ℚ)
        ≤ 200 * 2 ^ i + 200 * 2 ^ i * (1 / 10) * (rand * 2 - 1) := by
      push_cast
      nlinarith [hb, h0]
    have hfloor := Int.le_floor.mpr hle
    have hcast : ((180 * 2 ^ i : ℤ) : ℚ)
        ≤ ((⌊(200 : ℚ) * 2 ^ i + 200 * 2 ^ i * (1 / 10) * (rand * 2 - 1)⌋ : ℤ) : ℚ) :=
      Int.cast_le.mpr hfloor
    calc 9 / 10 * (200 * 2 ^ i) = ((180 * 2 ^ i : ℤ) : ℚ) := by push_cast; ring
    _ ≤ _ := hcast
  · unfold calculateBackoff
    have hx := Int.floor_le ((200 : ℚ) * 2 ^ i + 200 * 2 ^ i * (1 / 10) * (rand * 2 - 1))
    have hub : (200 : ℚ) * 2 ^ i + 200 * 2 ^ i * (1 / 10) * (rand * 2 - 1)
        ≤ 11 / 10 * (200 * 2 ^ i) := by nlinarith [hb, h1]
    exact le_trans hx hub

/-- C7 amended witness: at retry index 0 and jitter draw 0 the wait is
within the amended bounds. -/
theorem claimC7_amended_backoff_bounds_witness :
    9 / 10 * (200 * 2 ^ 0) ≤ calculateBackoff 0 200 none 0
    ∧ calculateBackoff 0 200 none 0 ≤ 11 / 10 * (200 * 2 ^ 0) :=
  ⟨(claimC7_amended_backoff_bounds 0 0 (by norm_num) (by norm_num)).2.1,
   (claimC7_amended_backoff_bounds 0 0 (by norm_num) (by norm_num)).2.2⟩

/-! ## Claim C8 -/

set_option maxRecDepth 10000 in
/-- C8 counterexample: `computeRequestHash`, as invoked by
`sendMessage` (no timestamp supplied), hashes a payload that includes
the `new Date().toISOString()` clock reading, so two computations over
identical `(tenantId, sessionId, content)` made at different instants
yield different hash values — the fingerprint is not a deterministic
function of those three inputs alone. -/
theorem claimC8_counterexample :
    computeRequestHash "t1" "s1" "hi" none "2024-01-01T00:00:00.000Z"
      ≠ computeRequestHash "t1" "s1" "hi" none "2024-01-01T00:00:01.000Z" := by
  decide

/-- C8 amended: the fingerprint is a deterministic function of
`(tenantId, sessionId, content, timestamp)`, where the timestamp
defaults to the invocation-time clock reading: with a supplied
(non-empty) timestamp the clock is ignored, and two computations at the
same clock instant always agree. -/
theorem claimC8_amended_hash_deterministic (t s c ts now1 now2 : String)
    (hts : ts ≠ "") :
    computeRequestHash t s c (some ts) now1 = computeRequestHash t s c (some ts) now2
    ∧ computeRequestHash t s c none now1 = computeRequestHash t s c none now1 := by
  constructor
  · simp only [computeRequestHash, jsStringOr, if_neg hts]
  · rfl

set_option maxRecDepth 10000 in
/-- C8 amended witness: with an explicitly supplied timestamp the hash
is independent of the clock. -/
theorem claimC8_amended_hash_deterministic_witness :
    computeRequestHash "t1" "s1" "hi" (some "2024-01-01T00:00:00.000Z") "A"
      = computeRequestHash "t1" "s1" "hi" (some "2024-01-01T00:00:00.000Z") "B" :=
  (claimC8_amended_hash_deterministic "t1" "s1" "hi" "2024-01-01T00:00:00.000Z"
    "A" "B" (by decide)).1

/-! ## Claim C2 -/

/-- C2: when the step-1 lookup finds a completed idempotency record,
`sendMessage` returns the stored envelope changed only by setting
`metadata.idempotency.replayed := true`, and the store is untouched (no
message, attempt, usage or idempotency writes). -/
theorem claimC2_replay_no_writes (tenantId sessionId key content requestId : String)
    (env : Env) (db : DB) (rec : IdemRow) (stored : SendMessageResponse)
    (hkey : ¬ key = "")
    (hlookup : IdempotencyRepo.lookup tenantId "send_message" key db = some rec)
    (hresp : rec.responseJson = some stored) :
    sendMessage tenantId sessionId (some key) content requestId env db
      = (.ok (markReplayed stored), db)
    ∧ markReplayed stored
      = { stored with metadata :=
            { stored.metadata with idempotency :=
                { stored.metadata.idempotency with replayed := true } } } := by
  refine ⟨?_, rfl⟩
  simp only [sendMessage, hlookup, hresp, if_neg hkey]

/-- C2 witness: replaying key `K` against a completed record returns
the stored envelope with `replayed := true` and leaves the store
unchanged. -/
theorem claimC2_replay_no_writes_witness :
    sendMessage "t1" "s1" (some "K") "world" "req2" fixtureEnvOk fixtureDbCompleted
      = (.ok (markReplayed fixtureStoredEnvelope), fixtureDbCompleted) :=
  (claimC2_replay_no_writes "t1" "s1" "K" "world" "req2" fixtureEnvOk
    fixtureDbCompleted
    ⟨"idem_x", "t1", "send_message", "K", some "s1", "h",
      some fixtureStoredEnvelope, 0⟩
    fixtureStoredEnvelope (by decide) (by rfl) (by rfl)).1

/-! ## Retry-engine lemmas (about `retryGo`) -/

/-- The retry engine itself never sets `fallbackUsed`. -/
theorem retryGo_fallbackUsed (p : AdapterModel) (cfg : RetryConfig) (ctx : CallContext) :
    ∀ (fuel base : Nat) (db : DB),
      (retryGo p cfg ctx base fuel db).1.fallbackUsed = false := by
  intro fuel
  induction fuel with
  | zero => intro base db; rfl
  | succ n ih =>
      intro base db
      simp only [retryGo]
      cases hoc : (p.outcomes base).result with
      | ok resp => simp
      | fail fk =>
          simp only []
          split
          · exact ih (base + 1) _
          · simp

/-- The retry engine makes at most `fuel` attempts. -/
theorem retryGo_attempts_length (p : AdapterModel) (cfg : RetryConfig) (ctx : CallContext) :
    ∀ (fuel base : Nat) (db : DB),
      ((retryGo p cfg ctx base fuel db).1.attempts).length ≤ fuel := by
  intro fuel
  induction fuel with
  | zero => intro base db; simp [retryGo]
  | succ n ih =>
      intro base db
      simp only [retryGo]
      cases hoc : (p.outcomes base).result with
      | ok resp => simp
      | fail fk =>
          simp only []
          split
          · simpa using ih (base + 1) _
          · simp

/-- Retry indices are dense: the `j`-th recorded attempt carries
`retries = base + j`. -/
theorem retryGo_retries_dense (p : AdapterModel) (cfg : RetryConfig) (ctx : CallContext) :
    ∀ (fuel base : Nat) (db : DB) (j : Nat),
      j < ((retryGo p cfg ctx base fuel db).1.attempts).length →
      (((retryGo p cfg ctx base fuel db).1.attempts).getD j dfltAttempt).retries
        = base + j := by
  intro fuel
  induction fuel with
  | zero => intro base db j h; simp [retryGo] at h
  | succ n ih =>
      intro base db j h
      simp only [retryGo] at h ⊢
      cases hoc : (p.outcomes base).result with
      | ok resp =>
          rw [hoc] at h
          simp at h
          subst h
          simp [successAttempt]
      | fail fk =>
          rw [hoc] at h
          dsimp only [] at h ⊢
          by_cases hretry : (decide (base < cfg.maxRetries)
              && isRetryableError (failKindToProviderError p.name cfg fk)) = true
          · rw [if_pos hretry] at h ⊢
            simp only [List.length_cons] at h
            cases j with
            | zero => simp [failedAttempt]
            | succ m =>
                simp only [List.getD_cons_succ]
                have := ih (base + 1) (persistAttempt ctx (failedAttempt p.name
                  (failKindToProviderError p.name cfg fk)
                  (p.outcomes base).latencyMs base) db) m (by omega)
                rw [this]
                omega
          · rw [if_neg hretry] at h ⊢
            simp at h
            subst h
            simp [failedAttempt]

/-- On success the retry engine returns the first successful response:
the final recorded attempt corresponds to a successful outcome, all
earlier outcomes failed, and the response returned is that outcome's. -/
theorem retryGo_success_spec (p : AdapterModel) (cfg : RetryConfig) (ctx : CallContext) :
    ∀ (fuel base : Nat) (db : DB),
      (retryGo p cfg ctx base fuel db).1.success = true →
      ∃ resp, (retryGo p cfg ctx base fuel db).1.response = some resp
        ∧ ((retryGo p cfg ctx base fuel db).1.attempts) ≠ []
        ∧ (p.outcomes (base + (((retryGo p cfg ctx base fuel db).1.attempts).length - 1))).result
            = .ok resp
        ∧ ∀ j, j + 1 < ((retryGo p cfg ctx base fuel db).1.attempts).length →
            (p.outcomes (base + j)).result.isOk = false := by
  intro fuel
  induction fuel with
  | zero => intro base db h; simp [retryGo] at h
  | succ n ih =>
      intro base db h
      simp only [retryGo] at h ⊢
      cases hoc : (p.outcomes base).result with
      | ok resp =>
          dsimp only []
          refine ⟨resp, rfl, by simp, ?_, ?_⟩
          · simpa using hoc
          · intro j hj
            simp at hj
      | fail fk =>
          rw [hoc] at h
          dsimp only [] at h ⊢
          by_cases hretry : (decide (base < cfg.maxRetries)
              && isRetryableError (failKindToProviderError p.name cfg fk)) = true
          · rw [if_pos hretry] at h ⊢
            dsimp only [] at h ⊢
            obtain ⟨resp, hresp, hne, hok, hprev⟩ := ih (base + 1) _ h
            have hlen : 1 ≤ ((retryGo p cfg ctx (base + 1) n
                (persistAttempt ctx (failedAttempt p.name
                  (failKindToProviderError p.name cfg fk)
                  (p.outcomes base).latencyMs base) db)).1.attempts).length := by
              cases hcase : ((retryGo p cfg ctx (base + 1) n
                  (persistAttempt ctx (failedAttempt p.name
                    (failKindToProviderError p.name cfg fk)
                    (p.outcomes base).latencyMs base) db)).1.attempts) with
              | nil => exact absurd hcase hne
              | cons x xs => simp
            refine ⟨resp, by simpa using hresp, by simp, ?_, ?_⟩
            · simp only [List.length_cons]
              rw [show base + (((retryGo p cfg ctx (base + 1) n
                  (persistAttempt ctx (failedAttempt p.name
                    (failKindToProviderError p.name cfg fk)
                    (p.outcomes base).latencyMs base) db)).1.attempts).length + 1 - 1)
                  = base + 1 + (((retryGo p cfg ctx (base + 1) n
                  (persistAttempt ctx (failedAttempt p.name
                    (failKindToProviderError p.name cfg fk)
                    (p.outcomes base).latencyMs base) db)).1.attempts).length - 1)
                from by omega]
              exact hok
            · intro j hj
              cases j with
              | zero =>
                  simpa [CallResultKind.isOk] using congrArg CallResultKind.isOk hoc
              | succ m =>
                  simp only [List.length_cons] at hj
                  have := hprev m (by omega)
                  rw [show base + (m + 1) = base + 1 + m from by omega]
                  exact this
          · rw [if_neg hretry] at h
            dsimp only [] at h
            exact absurd h (by simp)

/-- Every non-final recorded attempt corresponds to a retryable failed
outcome (the engine only continues past an attempt that failed
retryably). -/
theorem retryGo_prefix_retryable (p : AdapterModel) (cfg : RetryConfig) (ctx : CallContext) :
    ∀ (fuel base : Nat) (db : DB) (j : Nat),
      j + 1 < ((retryGo p cfg ctx base fuel db).1.attempts).length →
      ∃ fk, (p.outcomes (base + j)).result = .fail fk
        ∧ isRetryableError (failKindToProviderError p.name cfg fk) = true := by
  intro fuel
  induction fuel with
  | zero => intro base db j h; simp [retryGo] at h
  | succ n ih =>
      intro base db j h
      simp only [retryGo] at h
      cases hoc : (p.outcomes base).result with
      | ok resp =>
          rw [hoc] at h
          simp at h
      | fail fk =>
          rw [hoc] at h
          dsimp only [] at h
          by_cases hretry : (decide (base < cfg.maxRetries)
              && isRetryableError (failKindToProviderError p.name cfg fk)) = true
          · rw [if_pos hretry] at h
            dsimp only [] at h
            cases j with
            | zero =>
                refine ⟨fk, by simpa using hoc, ?_⟩
                exact ((Bool.and_eq_true _ _).mp hretry).2
            | succ m =>
                simp only [List.length_cons] at h
                obtain ⟨fk', h1, h2⟩ := ih (base + 1) (persistAttempt ctx
                  (failedAttempt p.name (failKindToProviderError p.name cfg fk)
                    (p.outcomes base).latencyMs base) db) m (by omega)
                refine ⟨fk', ?_, h2⟩
                rw [show base + (m + 1) = base + 1 + m from by omega]
                exact h1
          · rw [if_neg hretry] at h
            simp at h

/-- If the engine stopped early (fewer attempts than its fuel allows
under the top-level invariant `base + fuel = maxRetries + 1`), the last
failure was non-retryable. -/
theorem retryGo_earlystop (p : AdapterModel) (cfg : RetryConfig) (ctx : CallContext) :
    ∀ (fuel base : Nat) (db : DB),
      base + fuel = cfg.maxRetries + 1 →
      (retryGo p cfg ctx base fuel db).1.success = false →
      ((retryGo p cfg ctx base fuel db).1.attempts).length < fuel →
      ∃ e, (retryGo p cfg ctx base fuel db).1.error = some e
        ∧ isRetryableError e = false := by
  intro fuel
  induction fuel with
  | zero => intro base db _ _ hlen; simp [retryGo] at hlen
  | succ n ih =>
      intro base db hinv hs hlen
      simp only [retryGo] at hs hlen ⊢
      cases hoc : (p.outcomes base).result with
      | ok resp =>
          rw [hoc] at hs
          dsimp only [] at hs
          exact absurd hs (by simp)
      | fail fk =>
          rw [hoc] at hs hlen
          dsimp only [] at hs hlen ⊢
          by_cases hretry : (decide (base < cfg.maxRetries)
              && isRetryableError (failKindToProviderError p.name cfg fk)) = true
          · rw [if_pos hretry] at hs hlen ⊢
            dsimp only [] at hs hlen ⊢
            simp only [List.length_cons] at hlen
            obtain ⟨e, he, hr⟩ := ih (base + 1) (persistAttempt ctx
              (failedAttempt p.name (failKindToProviderError p.name cfg fk)
                (p.outcomes base).latencyMs base) db) (by omega) hs (by omega)
            exact ⟨e, he, hr⟩
          · rw [if_neg hretry] at hlen ⊢
            dsimp only [] at hlen ⊢
            simp only [List.length_cons, List.length_nil] at hlen
            have hbase : base < cfg.maxRetries := by omega
            have hnr : isRetryableError (failKindToProviderError p.name cfg fk) = false := by
              cases hir : isRetryableError (failKindToProviderError p.name cfg fk) with
              | false => rfl
              | true => exact absurd (by simp [hbase, hir]) hretry
            exact ⟨failKindToProviderError p.name cfg fk, rfl, hnr⟩

/-- The engine's result (success flag, response, error, attempts) does
not depend on the store or the logging context threaded through it. -/
theorem retryGo_result_irrel (p : AdapterModel) (cfg : RetryConfig) :
    ∀ (fuel base : Nat) (ctx ctx' : CallContext) (db db' : DB),
      (retryGo p cfg ctx base fuel db).1 = (retryGo p cfg ctx' base fuel db').1 := by
  intro fuel
  induction fuel with
  | zero => intro base ctx ctx' db db'; rfl
  | succ n ih =>
      intro base ctx ctx' db db'
      simp only [retryGo]
      cases hoc : (p.outcomes base).result with
      | ok resp => rfl
      | fail fk =>
          dsimp only []
          by_cases hretry : (decide (base < cfg.maxRetries)
              && isRetryableError (failKindToProviderError p.name cfg fk)) = true
          · rw [if_pos hretry, if_pos hretry]
            have hih := ih (base + 1) ctx ctx'
              (persistAttempt ctx (failedAttempt p.name
                (failKindToProviderError p.name cfg fk)
                (p.outcomes base).latencyMs base) db)
              (persistAttempt ctx' (failedAttempt p.name
                (failKindToProviderError p.name cfg fk)
                (p.outcomes base).latencyMs base) db')
            dsimp only []
            rw [hih]
          · rw [if_neg hretry, if_neg hretry]

/-- The engine's store effect is exactly: append one provider-call
event row per recorded attempt (each row stamped with the context's
tenant), consuming one gensym per row. -/
theorem retryGo_db_shape (p : AdapterModel) (cfg : RetryConfig) (ctx : CallContext) :
    ∀ (fuel base : Nat) (db : DB),
      ∃ rows, (retryGo p cfg ctx base fuel db).2
          = { db with
                providerCallEvents := db.providerCallEvents ++ rows
                gensym := db.gensym + rows.length }
        ∧ rows.length = ((retryGo p cfg ctx base fuel db).1.attempts).length
        ∧ ∀ r ∈ rows, r.tenantId = ctx.tenantId := by
  intro fuel
  induction fuel with
  | zero => intro base db; exact ⟨[], by simp [retryGo], by simp [retryGo], by simp⟩
  | succ n ih =>
      intro base db
      simp only [retryGo]
      cases hoc : (p.outcomes base).result with
      | ok resp =>
          refine ⟨[attemptEventRow ctx ("evt_" ++ toString db.gensym)
            (successAttempt p.name (p.outcomes base).latencyMs base)], ?_, by simp, ?_⟩
          · simp [persistAttempt, generateEventId, generateId, ProviderCallEventRepo.create]
          · intro r hr
            simp at hr
            subst hr
            rfl
      | fail fk =>
          dsimp only []
          by_cases hretry : (decide (base < cfg.maxRetries)
              && isRetryableError (failKindToProviderError p.name cfg fk)) = true
          · rw [if_pos hretry]
            dsimp only []
            obtain ⟨rows', heq, hlen, htenant⟩ := ih (base + 1)
              (persistAttempt ctx (failedAttempt p.name
                (failKindToProviderError p.name cfg fk)
                (p.outcomes base).latencyMs base) db)
            refine ⟨attemptEventRow ctx ("evt_" ++ toString db.gensym)
              (failedAttempt p.name (failKindToProviderError p.name cfg fk)
                (p.outcomes base).latencyMs base) :: rows', ?_, ?_, ?_⟩
            · rw [heq]
              simp only [persistAttempt, generateEventId, generateId,
                ProviderCallEventRepo.create]
              congr 1
              · simp
              · simp only [List.length_cons]
                omega
            · simpa using hlen
            · intro r hr
              rcases List.mem_cons.mp hr with h | h
              · subst h; rfl
              · exact htenant r h
          · rw [if_neg hretry]
            dsimp only []
            refine ⟨[attemptEventRow ctx ("evt_" ++ toString db.gensym)
              (failedAttempt p.name (failKindToProviderError p.name cfg fk)
                (p.outcomes base).latencyMs base)], ?_, by simp, ?_⟩
            · simp [persistAttempt, generateEventId, generateId, ProviderCallEventRepo.create]
            · intro r hr
              simp at hr
              subst hr
              rfl

/-! ## Claim C5 -/

/-- C5: the fallback orchestrator always runs the retry engine against
the primary first; on primary success it returns the primary result
unchanged (`fallbackUsed = false`, only primary attempts); on primary
failure with no fallback it returns the primary failure; otherwise it
runs the engine against the fallback and returns the fallback result
with `fallbackUsed = true` and attempts = primary ++ fallback in
order. -/
theorem claimC5_fallback_orchestration (p : AdapterModel) (fb : Option AdapterModel)
    (req : ProviderRequest) (cfg : RetryConfig) (ctx : CallContext) (db : DB) :
    ((callProviderWithRetry p req cfg ctx db).1.fallbackUsed = false)
    ∧ ((callProviderWithRetry p req cfg ctx db).1.success = true →
        callProviderWithFallback p fb req cfg ctx db
          = callProviderWithRetry p req cfg ctx db)
    ∧ ((callProviderWithRetry p req cfg ctx db).1.success = false →
        callProviderWithFallback p none req cfg ctx db
          = callProviderWithRetry p req cfg ctx db)
    ∧ (∀ f, fb = some f →
        (callProviderWithRetry p req cfg ctx db).1.success = false →
        callProviderWithFallback p fb req cfg ctx db
          = ({ (callProviderWithRetry f req cfg ctx
                  (callProviderWithRetry p req cfg ctx db).2).1 with
                attempts := (callProviderWithRetry p req cfg ctx db).1.attempts
                  ++ (callProviderWithRetry f req cfg ctx
                      (callProviderWithRetry p req cfg ctx db).2).1.attempts
                fallbackUsed := true },
             (callProviderWithRetry f req cfg ctx
                (callProviderWithRetry p req cfg ctx db).2).2)) := by
  refine ⟨retryGo_fallbackUsed p cfg ctx _ 0 db, ?_, ?_, ?_⟩
  · intro h
    unfold callProviderWithFallback
    rw [if_pos h]
  · intro h
    unfold callProviderWithFallback
    rw [if_neg (by simp [h])]
  · intro f hf h
    subst hf
    unfold callProviderWithFallback
    rw [if_neg (by simp [h])]

/-- C5 witness: a 503-failing primary with a succeeding fallback yields
the fallback result with concatenated attempts and
`fallbackUsed = true`. -/
theorem claimC5_fallback_orchestration_witness :
    callProviderWithFallback fixtureAdapterFailA (some fixtureAdapterOkB)
      fixtureReq DEFAULT_RETRY_CONFIG fixtureCtx fixtureDb
      = ({ (callProviderWithRetry fixtureAdapterOkB fixtureReq DEFAULT_RETRY_CONFIG
              fixtureCtx (callProviderWithRetry fixtureAdapterFailA fixtureReq
                DEFAULT_RETRY_CONFIG fixtureCtx fixtureDb).2).1 with
            attempts := (callProviderWithRetry fixtureAdapterFailA fixtureReq
                DEFAULT_RETRY_CONFIG fixtureCtx fixtureDb).1.attempts
              ++ (callProviderWithRetry fixtureAdapterOkB fixtureReq DEFAULT_RETRY_CONFIG
                  fixtureCtx (callProviderWithRetry fixtureAdapterFailA fixtureReq
                    DEFAULT_RETRY_CONFIG fixtureCtx fixtureDb).2).1.attempts
            fallbackUsed := true },
         (callProviderWithRetry fixtureAdapterOkB fixtureReq DEFAULT_RETRY_CONFIG
            fixtureCtx (callProviderWithRetry fixtureAdapterFailA fixtureReq
              DEFAULT_RETRY_CONFIG fixtureCtx fixtureDb).2).2) :=
  (claimC5_fallback_orchestration fixtureAdapterFailA (some fixtureAdapterOkB)
    fixtureReq DEFAULT_RETRY_CONFIG fixtureCtx fixtureDb).2.2.2
    fixtureAdapterOkB rfl (by rfl)

/-! ## Claim C6 -/

/-- C6: the retry engine issues at most `maxRetries + 1` vendor calls
(one attempt record per call); retry indices are dense `0..n-1` in
invocation order; on success it returns the first successful outcome's
response immediately (all earlier outcomes failed); it stops before
exhausting its budget only on a non-retryable failure, and every
non-final attempt failed retryably; retryable means status ≥ 500 or
= 429, and a timeout synthesizes the retryable failure
`{504, TIMEOUT}`. -/
theorem claimC6_retry_engine (p : AdapterModel) (req : ProviderRequest)
    (cfg : RetryConfig) (ctx : CallContext) (db : DB) :
    ((callProviderWithRetry p req cfg ctx db).1.attempts).length ≤ cfg.maxRetries + 1
    ∧ (∀ j, j < ((callProviderWithRetry p req cfg ctx db).1.attempts).length →
        (((callProviderWithRetry p req cfg ctx db).1.attempts).getD j dfltAttempt).retries
          = j)
    ∧ ((callProviderWithRetry p req cfg ctx db).1.success = true →
        ∃ resp, (callProviderWithRetry p req cfg ctx db).1.response = some resp
          ∧ ((callProviderWithRetry p req cfg ctx db).1.attempts) ≠ []
          ∧ (p.outcomes (((callProviderWithRetry p req cfg ctx db).1.attempts).length - 1)).result
              = .ok resp
          ∧ ∀ j, j + 1 < ((callProviderWithRetry p req cfg ctx db).1.attempts).length →
              (p.outcomes j).result.isOk = false)
    ∧ ((callProviderWithRetry p req cfg ctx db).1.success = false →
        ((callProviderWithRetry p req cfg ctx db).1.attempts).length < cfg.maxRetries + 1 →
        ∃ e, (callProviderWithRetry p req cfg ctx db).1.error = some e
          ∧ e.isRetryable = false)
    ∧ (∀ j, j + 1 < ((callProviderWithRetry p req cfg ctx db).1.attempts).length →
        ∃ fk, (p.outcomes j).result = .fail fk
          ∧ (failKindToProviderError p.name cfg fk).isRetryable = true)
    ∧ (∀ e : ProviderError, e.isRetryable = true ↔ (500 ≤ e.statusCode ∨ e.statusCode = 429))
    ∧ (failKindToProviderError p.name cfg .timedOut).statusCode = 504
    ∧ (failKindToProviderError p.name cfg .timedOut).errorCode = "TIMEOUT"
    ∧ (failKindToProviderError p.name cfg .timedOut).isRetryable = true := by
  refine ⟨retryGo_attempts_length p cfg ctx _ 0 db, ?_, ?_, ?_, ?_, ?_, rfl, rfl, rfl⟩
  · intro j hj
    simpa using retryGo_retries_dense p cfg ctx _ 0 db j hj
  · intro h
    obtain ⟨resp, h1, h2, h3, h4⟩ := retryGo_success_spec p cfg ctx _ 0 db h
    refine ⟨resp, h1, h2, by simpa using h3, fun j hj => by simpa using h4 j hj⟩
  · intro h hlen
    exact retryGo_earlystop p cfg ctx _ 0 db (by omega) h hlen
  · intro j hj
    obtain ⟨fk, h1, h2⟩ := retryGo_prefix_retryable p cfg ctx _ 0 db j hj
    exact ⟨fk, by simpa using h1, h2⟩
  · intro e
    simp [ProviderError.isRetryable]

/-- C6 witness: against an adapter that always fails with a
non-retryable 400, the engine under the default policy stops after a
single attempt and reports a non-retryable error. -/
theorem claimC6_retry_engine_witness :
    ∃ e, (callProviderWithRetry fixtureAdapter400A fixtureReq DEFAULT_RETRY_CONFIG
          fixtureCtx fixtureDb).1.error = some e
      ∧ e.isRetryable = false :=
  (claimC6_retry_engine fixtureAdapter400A fixtureReq DEFAULT_RETRY_CONFIG
    fixtureCtx fixtureDb).2.2.2.1 (by rfl) (by decide)

/-! ## Claim C1 -/

set_option maxRecDepth 10000 in
/-- C1 (code bug): starting from a store whose idempotency record for
`("t1", "send_message", "K")` exists with a null response (a concurrent
request mid-flight), `sendMessage` does not return a conflict: it
proceeds with the full pipeline — the vendor is called (one new attempt
row), both a user and an assistant message are written, and a usage
event is created.  The spec requires a conflict-shaped response with no
vendor call and no writes, which would keep usage under a key at most
one. -/
theorem claimC1_midflight_not_conflict :
    ((sendMessage "t1" "s1" (some "K") "hello" "req2" fixtureEnvOk
        fixtureDbMidFlight).1).isOk = true
    ∧ (sendMessage "t1" "s1" (some "K") "hello" "req2" fixtureEnvOk
        fixtureDbMidFlight).2.usageEvents.length
        = fixtureDbMidFlight.usageEvents.length + 1
    ∧ (sendMessage "t1" "s1" (some "K") "hello" "req2" fixtureEnvOk
        fixtureDbMidFlight).2.providerCallEvents.length
        = fixtureDbMidFlight.providerCallEvents.length + 1
    ∧ (sendMessage "t1" "s1" (some "K") "hello" "req2" fixtureEnvOk
        fixtureDbMidFlight).2.messages.length
        = fixtureDbMidFlight.messages.length + 2 := by
  decide

/-! ## Pipeline-level lemmas -/

/-- Auxiliary: `find?` over an append skips a prefix with no match. -/
theorem find?_append_none {α : Type} (p : α → Bool) (l1 l2 : List α)
    (h : l1.find? p = none) : (l1 ++ l2).find? p = l2.find? p := by
  induction l1 with
  | nil => rfl
  | cons a l ih =>
      rw [List.find?_cons] at h
      cases hp : p a with
      | true => rw [hp] at h; simp at h
      | false =>
          rw [hp] at h
          simp only [List.cons_append, List.find?_cons, hp]
          exact ih h

/-- The orchestrator's result does not depend on the request, the
logging context or the store threaded through it. -/
theorem callProviderWithFallback_result_irrel (p : AdapterModel)
    (fb : Option AdapterModel) (req req' : ProviderRequest) (cfg : RetryConfig)
    (ctx ctx' : CallContext) (db db' : DB) :
    (callProviderWithFallback p fb req cfg ctx db).1
      = (callProviderWithFallback p fb req' cfg ctx' db').1 := by
  unfold callProviderWithFallback callProviderWithRetry
  dsimp only []
  have h1 := retryGo_result_irrel p cfg (cfg.maxRetries + 1) 0 ctx ctx' db db'
  rw [h1]
  by_cases hs : (retryGo p cfg ctx' 0 (cfg.maxRetries + 1) db').1.success = true
  · rw [if_pos hs, if_pos hs]
    exact h1
  · rw [if_neg hs, if_neg hs]
    cases fb with
    | none => exact h1
    | some f =>
        dsimp only []
        have h2 := retryGo_result_irrel f cfg (cfg.maxRetries + 1) 0 ctx ctx'
          (retryGo p cfg ctx 0 (cfg.maxRetries + 1) db).2
          (retryGo p cfg ctx' 0 (cfg.maxRetries + 1) db').2
        rw [h2]

/-- The orchestrator's store effect is exactly: append one
provider-call event row per collected attempt, each stamped with the
context's tenant. -/
theorem callProviderWithFallback_db_shape (p : AdapterModel)
    (fb : Option AdapterModel) (req : ProviderRequest) (cfg : RetryConfig)
    (ctx : CallContext) (db : DB) :
    ∃ rows, (callProviderWithFallback p fb req cfg ctx db).2
        = { db with
              providerCallEvents := db.providerCallEvents ++ rows
              gensym := db.gensym + rows.length }
      ∧ rows.length = ((callProviderWithFallback p fb req cfg ctx db).1.attempts).length
      ∧ ∀ r ∈ rows, r.tenantId = ctx.tenantId := by
  unfold callProviderWithFallback callProviderWithRetry
  obtain ⟨rows1, heq1, hlen1, ht1⟩ := retryGo_db_shape p cfg ctx (cfg.maxRetries + 1) 0 db
  by_cases hs : (retryGo p cfg ctx 0 (cfg.maxRetries + 1) db).1.success = true
  · rw [if_pos hs]
    exact ⟨rows1, heq1, hlen1, ht1⟩
  · rw [if_neg hs]
    cases fb with
    | none => exact ⟨rows1, heq1, hlen1, ht1⟩
    | some f =>
        dsimp only []
        obtain ⟨rows2, heq2, hlen2, ht2⟩ := retryGo_db_shape f cfg ctx
          (cfg.maxRetries + 1) 0 ((retryGo p cfg ctx 0 (cfg.maxRetries + 1) db).2)
        refine ⟨rows1 ++ rows2, ?_, ?_, ?_⟩
        · rw [heq2, heq1]
          dsimp only []
          congr 1
          all_goals first
            | rfl
            | (simp only [List.length_append]; omega)
            | (simp [List.append_assoc]; done)
        · simp only [List.length_append, List.length_cons]
          rw [hlen1, hlen2]
        · intro r hr
          rcases List.mem_append.mp hr with h | h
          · exact ht1 r h
          · exact ht2 r h

/-- When the orchestrator reports total failure, the user-message stage
of the pipeline throws `ALL_PROVIDERS_FAILED` with the primary vendor,
the fallback vendor and the collected attempts; it leaves the usage,
idempotency and agents tables untouched, appends exactly the user
message (no assistant message) and one event row per attempt, and
touches only `lastActivityAt` on the session. -/
theorem sendMessageWithAgent_fail (tenantId sessionId key content requestId : String)
    (env : Env) (db : DB) (sess : SessionRow) (agent : AgentRow)
    (pA : AdapterModel) (fbOpt : Option AdapterModel)
    (hpA : getProviderAdapter env.oracle agent.primaryProvider = some pA)
    (hfb : resolveFallbackAdapter env.oracle agent.fallbackProvider = .ok fbOpt)
    (hfail : ∀ req ctx dbx, (callProviderWithFallback pA fbOpt req
      DEFAULT_RETRY_CONFIG ctx dbx).1.success = false) :
    ∃ attempts dbF,
      sendMessageWithAgent tenantId sessionId key content requestId env db sess agent
        = (.err (.allProvidersFailed agent.primaryProvider agent.fallbackProvider
            attempts), dbF)
      ∧ dbF.usageEvents = db.usageEvents
      ∧ dbF.messages = db.messages
          ++ [⟨"msg_" ++ toString db.gensym, tenantId, sessionId, "user", content, env.now⟩]
      ∧ (∃ rows, dbF.providerCallEvents = db.providerCallEvents ++ rows
          ∧ rows.length = attempts.length
          ∧ ∀ r ∈ rows, r.tenantId = tenantId)
      ∧ dbF.idempotencyRecords = db.idempotencyRecords
      ∧ dbF.sessions = db.sessions.map
          (fun s => if s.id == sessionId then { s with lastActivityAt := env.now } else s)
      ∧ dbF.agents = db.agents := by
  simp only [sendMessageWithAgent, generateMessageId, generateId, MessageRepo.create,
    SessionRepo.updateLastActivity, hpA, hfb]
  rw [if_pos (hfail _ _ _)]
  obtain ⟨rows, heq, hlen, ht⟩ := callProviderWithFallback_db_shape pA fbOpt
    { systemPrompt := agent.systemPrompt
      messages := List.map (fun m => ({ role := m.role, content := m.content } : ChatMessage))
        (MessageRepo.listBySession tenantId sessionId
          { db with
              sessions := db.sessions.map
                (fun s => if s.id == sessionId then { s with lastActivityAt := env.now } else s)
              messages := db.messages
                ++ [⟨"msg_" ++ toString db.gensym, tenantId, sessionId, "user", content, env.now⟩]
              gensym := db.gensym + 1 })
      enabledTools := agent.enabledToolsJson }
    DEFAULT_RETRY_CONFIG
    ⟨tenantId, sessionId, agent.id, requestId, env.now⟩
    { db with
        sessions := db.sessions.map
          (fun s => if s.id == sessionId then { s with lastActivityAt := env.now } else s)
        messages := db.messages
          ++ [⟨"msg_" ++ toString db.gensym, tenantId, sessionId, "user", content, env.now⟩]
        gensym := db.gensym + 1 }
  refine ⟨_, _, rfl, ?_, ?_, ⟨rows, ?_, hlen, fun r hr => ht r hr⟩, ?_, ?_, ?_⟩
  · rw [heq]
  · rw [heq]
  · rw [heq]
  · rw [heq]
  · rw [heq]
  · rw [heq]

/-! ## Claim C3 -/

/-- C3: on a fresh key, when the fallback orchestrator reports total
failure, `sendMessage` throws `ALL_PROVIDERS_FAILED` carrying the
primary vendor, the fallback vendor (or none) and the collected
attempts; it creates no assistant message and no usage event; the
idempotency placeholder remains with a null response (not completed);
and the user message appended in step 5 plus one attempt row per
collected attempt remain persisted. -/
theorem claimC3_total_failure (tenantId sessionId key content requestId : String)
    (env : Env) (db : DB) (sess : SessionRow) (agent : AgentRow)
    (pA : AdapterModel) (fbOpt : Option AdapterModel)
    (hkey : ¬ key = "")
    (hlook : IdempotencyRepo.lookup tenantId "send_message" key db = none)
    (hsess : SessionRepo.findById tenantId sessionId db = some sess)
    (hagent : AgentRepo.findById tenantId sess.agentId db = some agent)
    (hpA : getProviderAdapter env.oracle agent.primaryProvider = some pA)
    (hfb : resolveFallbackAdapter env.oracle agent.fallbackProvider = .ok fbOpt)
    (hfail : ∀ req ctx dbx, (callProviderWithFallback pA fbOpt req
      DEFAULT_RETRY_CONFIG ctx dbx).1.success = false) :
    ∃ attempts dbF,
      sendMessage tenantId sessionId (some key) content requestId env db
        = (.err (.allProvidersFailed agent.primaryProvider agent.fallbackProvider
            attempts), dbF)
      ∧ dbF.usageEvents = db.usageEvents
      ∧ dbF.messages = db.messages
          ++ [⟨"msg_" ++ toString (db.gensym + 1), tenantId, sessionId, "user",
              content, env.now⟩]
      ∧ (∃ rows, dbF.providerCallEvents = db.providerCallEvents ++ rows
          ∧ rows.length = attempts.length)
      ∧ IdempotencyRepo.lookup tenantId "send_message" key dbF
          = some ⟨"idem_" ++ toString db.gensym, tenantId, "send_message", key,
              some sessionId, computeRequestHash tenantId sessionId content none env.nowIso,
              none, env.now⟩ := by
  have hlook1 : IdempotencyRepo.lookup tenantId "send_message" key
      ({ db with gensym := db.gensym + 1 }) = none := hlook
  have hsess1 : SessionRepo.findById tenantId sessionId
      ({ db with
          idempotencyRecords := db.idempotencyRecords
            ++ [⟨"idem_" ++ toString db.gensym, tenantId, "send_message", key,
                some sessionId,
                computeRequestHash tenantId sessionId content none env.nowIso,
                none, env.now⟩]
          gensym := db.gensym + 1 }) = some sess := hsess
  have hagent1 : AgentRepo.findById tenantId sess.agentId
      ({ db with
          idempotencyRecords := db.idempotencyRecords
            ++ [⟨"idem_" ++ toString db.gensym, tenantId, "send_message", key,
                some sessionId,
                computeRequestHash tenantId sessionId content none env.nowIso,
                none, env.now⟩]
          gensym := db.gensym + 1 }) = some agent := hagent
  obtain ⟨attempts, dbF, heqW, husage, hmsgs, hevents, hidem, hsesss, hagents⟩ :=
    sendMessageWithAgent_fail tenantId sessionId key content requestId env
      ({ db with
          idempotencyRecords := db.idempotencyRecords
            ++ [⟨"idem_" ++ toString db.gensym, tenantId, "send_message", key,
                some sessionId,
                computeRequestHash tenantId sessionId content none env.nowIso,
                none, env.now⟩]
          gensym := db.gensym + 1 })
      sess agent pA fbOpt hpA hfb hfail
  refine ⟨attempts, dbF, ?_, husage, hmsgs, ?_, ?_⟩
  · simp only [sendMessage, hlook, if_neg hkey]
    simp only [sendMessageCore, generateIdempotencyId, generateId,
      IdempotencyRepo.create, hlook1, hsess1, hagent1]
    exact heqW
  · obtain ⟨rows, hr1, hr2, _⟩ := hevents
    exact ⟨rows, hr1, hr2⟩
  · unfold IdempotencyRepo.lookup
    rw [hidem]
    rw [find?_append_none _ _ _ hlook]
    simp [IdempotencyRepo.matchesKey]

/-- C3 witness: a send against an always-503 `vendorA` with no fallback
throws `ALL_PROVIDERS_FAILED` without recording any usage. -/
theorem claimC3_total_failure_witness :
    ∃ attempts dbF,
      sendMessage "t1" "s1" (some "K") "hello" "req1" fixtureEnvFail fixtureDb
        = (.err (.allProvidersFailed "vendorA" none attempts), dbF)
      ∧ dbF.usageEvents = fixtureDb.usageEvents := by
  obtain ⟨attempts, dbF, h1, h2, -, -, -⟩ :=
    claimC3_total_failure "t1" "s1" "K" "hello" "req1" fixtureEnvFail fixtureDb
      ⟨"s1", "t1", "a1", "cust", "active", "", 0, 0⟩
      ⟨"a1", "t1", "Agent", "vendorA", none, "sys", [], 0⟩
      fixtureAdapterFailA none (by decide) rfl rfl rfl rfl rfl
      (fun req ctx dbx => by
        rw [callProviderWithFallback_result_irrel fixtureAdapterFailA none req
          fixtureReq DEFAULT_RETRY_CONFIG ctx fixtureCtx dbx fixtureDb]
        rfl)
  exact ⟨attempts, dbF, h1, h2⟩

/-! ## Store-projection corollaries of the orchestrator shape -/

/-- The orchestrator never touches the sessions table. -/
theorem callProviderWithFallback_sessions (p : AdapterModel) (fb : Option AdapterModel)
    (req : ProviderRequest) (cfg : RetryConfig) (ctx : CallContext) (db : DB) :
    (callProviderWithFallback p fb req cfg ctx db).2.sessions = db.sessions := by
  obtain ⟨rows, heq, -, -⟩ := callProviderWithFallback_db_shape p fb req cfg ctx db
  rw [heq]

/-- The orchestrator never touches the messages table. -/
theorem callProviderWithFallback_messages (p : AdapterModel) (fb : Option AdapterModel)
    (req : ProviderRequest) (cfg : RetryConfig) (ctx : CallContext) (db : DB) :
    (callProviderWithFallback p fb req cfg ctx db).2.messages = db.messages := by
  obtain ⟨rows, heq, -, -⟩ := callProviderWithFallback_db_shape p fb req cfg ctx db
  rw [heq]

/-- The orchestrator never touches the usage-events table. -/
theorem callProviderWithFallback_usageEvents (p : AdapterModel) (fb : Option AdapterModel)
    (req : ProviderRequest) (cfg : RetryConfig) (ctx : CallContext) (db : DB) :
    (callProviderWithFallback p fb req cfg ctx db).2.usageEvents = db.usageEvents := by
  obtain ⟨rows, heq, -, -⟩ := callProviderWithFallback_db_shape p fb req cfg ctx db
  rw [heq]

/-- The orchestrator never touches the idempotency table. -/
theorem callProviderWithFallback_idem (p : AdapterModel) (fb : Option AdapterModel)
    (req : ProviderRequest) (cfg : RetryConfig) (ctx : CallContext) (db : DB) :
    (callProviderWithFallback p fb req cfg ctx db).2.idempotencyRecords
      = db.idempotencyRecords := by
  obtain ⟨rows, heq, -, -⟩ := callProviderWithFallback_db_shape p fb req cfg ctx db
  rw [heq]

/-- The orchestrator never touches the agents table. -/
theorem callProviderWithFallback_agents (p : AdapterModel) (fb : Option AdapterModel)
    (req : ProviderRequest) (cfg : RetryConfig) (ctx : CallContext) (db : DB) :
    (callProviderWithFallback p fb req cfg ctx db).2.agents = db.agents := by
  obtain ⟨rows, heq, -, -⟩ := callProviderWithFallback_db_shape p fb req cfg ctx db
  rw [heq]

/-- New event rows written by the orchestrator carry the context's
tenant. -/
theorem callProviderWithFallback_events_scoped (p : AdapterModel)
    (fb : Option AdapterModel) (req : ProviderRequest) (cfg : RetryConfig)
    (ctx : CallContext) (db : DB) :
    ∀ e ∈ (callProviderWithFallback p fb req cfg ctx db).2.providerCallEvents,
      e ∈ db.providerCallEvents ∨ e.tenantId = ctx.tenantId := by
  obtain ⟨rows, heq, -, ht⟩ := callProviderWithFallback_db_shape p fb req cfg ctx db
  rw [heq]
  intro e he
  rcases List.mem_append.mp he with h | h
  · exact .inl h
  · exact .inr (ht e h)

/-! ## Session-table walks of the pipeline -/

/-- The completion stage never touches the sessions table. -/
theorem sendMessageComplete_sessions (tenantId sessionId key requestId : String)
    (env : Env) (db : DB) (agent : AgentRow) (pr : ProviderCallResult)
    (resp : NormalizedResponse) :
    (sendMessageComplete tenantId sessionId key requestId env db agent pr resp).2.sessions
      = db.sessions := by
  simp only [sendMessageComplete, generateMessageId, generateEventId, generateId,
    MessageRepo.create, UsageEventRepo.create, IdempotencyRepo.updateResponse]
  cases hc : calculateCost pr.providerUsed resp.tokensIn resp.tokensOut with
  | none => rfl
  | some cost => rfl

/-- The user-message stage always maps the sessions table by the
`lastActivityAt := now` touch (and nothing else), in every branch. -/
theorem sendMessageWithAgent_sessions (tenantId sessionId key content requestId : String)
    (env : Env) (db : DB) (sess : SessionRow) (agent : AgentRow) :
    (sendMessageWithAgent tenantId sessionId key content requestId env db sess agent).2.sessions
      = db.sessions.map
          (fun s => if s.id == sessionId then { s with lastActivityAt := env.now } else s) := by
  simp only [sendMessageWithAgent, generateMessageId, generateId, MessageRepo.create,
    SessionRepo.updateLastActivity]
  cases hpa : getProviderAdapter env.oracle agent.primaryProvider with
  | none => rfl
  | some pA =>
      dsimp only []
      cases hfb : resolveFallbackAdapter env.oracle agent.fallbackProvider with
      | error nm => rfl
      | ok fbOpt =>
          dsimp only []
          split
          · rw [callProviderWithFallback_sessions]
          · split
            · rw [callProviderWithFallback_sessions]
            · rw [sendMessageComplete_sessions, callProviderWithFallback_sessions]

/-- The gate-and-validate stage leaves the sessions table unchanged or
maps it by the `lastActivityAt` touch. -/
theorem sendMessageCore_sessions (tenantId sessionId key content requestId : String)
    (env : Env) (db : DB) :
    (sendMessageCore tenantId sessionId key content requestId env db).2.sessions
        = db.sessions
    ∨ (sendMessageCore tenantId sessionId key content requestId env db).2.sessions
        = db.sessions.map
            (fun s => if s.id == sessionId then { s with lastActivityAt := env.now } else s) := by
  simp only [sendMessageCore, generateIdempotencyId, generateId, IdempotencyRepo.create]
  cases hl : IdempotencyRepo.lookup tenantId "send_message" key
      ({ db with gensym := db.gensym + 1 }) with
  | some ex =>
      dsimp only []
      cases hr : ex.responseJson with
      | some stored => exact .inl rfl
      | none =>
          cases hs : SessionRepo.findById tenantId sessionId
              ({ db with gensym := db.gensym + 1 }) with
          | none => exact .inl rfl
          | some sess =>
              dsimp only []
              cases ha : AgentRepo.findById tenantId sess.agentId
                  ({ db with gensym := db.gensym + 1 }) with
              | none => exact .inl rfl
              | some agent =>
                  right
                  rw [sendMessageWithAgent_sessions]
  | none =>
      dsimp only []
      cases hs : SessionRepo.findById tenantId sessionId
          ({ db with
              idempotencyRecords := db.idempotencyRecords
                ++ [⟨"idem_" ++ toString db.gensym, tenantId, "send_message", key,
                    some sessionId,
                    computeRequestHash tenantId sessionId content none env.nowIso,
                    none, env.now⟩]
              gensym := db.gensym + 1 }) with
      | none => exact .inl rfl
      | some sess =>
          dsimp only []
          cases ha : AgentRepo.findById tenantId sess.agentId
              ({ db with
                  idempotencyRecords := db.idempotencyRecords
                    ++ [⟨"idem_" ++ toString db.gensym, tenantId, "send_message", key,
                        some sessionId,
                        computeRequestHash tenantId sessionId content none env.nowIso,
                        none, env.now⟩]
                  gensym := db.gensym + 1 }) with
          | none => exact .inl rfl
          | some agent =>
              right
              rw [sendMessageWithAgent_sessions]

/-- `sendMessage` leaves the sessions table unchanged or maps it by the
`lastActivityAt` touch. -/
theorem sendMessage_sessions (tenantId sessionId : String)
    (idempotencyKey : Option String) (content requestId : String)
    (env : Env) (db : DB) :
    (sendMessage tenantId sessionId idempotencyKey content requestId env db).2.sessions
        = db.sessions
    ∨ (sendMessage tenantId sessionId idempotencyKey content requestId env db).2.sessions
        = db.sessions.map
            (fun s => if s.id == sessionId then { s with lastActivityAt := env.now } else s) := by
  cases idempotencyKey with
  | none => exact .inl rfl
  | some key =>
      simp only [sendMessage]
      by_cases hk : key = ""
      · rw [if_pos hk]
        exact .inl rfl
      · rw [if_neg hk]
        cases hl : IdempotencyRepo.lookup tenantId "send_message" key db with
        | some ex =>
            dsimp only []
            cases hr : ex.responseJson with
            | some stored => exact .inl rfl
            | none => exact sendMessageCore_sessions tenantId sessionId key content requestId env db
        | none => exact sendMessageCore_sessions tenantId sessionId key content requestId env db

/-- The completion stage never reports `ALL_PROVIDERS_FAILED`. -/
theorem sendMessageComplete_not_allfail (tenantId sessionId key requestId : String)
    (env : Env) (db : DB) (agent : AgentRow) (pr : ProviderCallResult)
    (resp : NormalizedResponse) (prim : String) (fb : Option String)
    (atts : List ProviderCallAttempt) :
    ¬ (sendMessageComplete tenantId sessionId key requestId env db agent pr resp).1
        = .err (.allProvidersFailed prim fb atts) := by
  simp only [sendMessageComplete, generateMessageId, generateEventId, generateId,
    MessageRepo.create, UsageEventRepo.create, IdempotencyRepo.updateResponse]
  cases hc : calculateCost pr.providerUsed resp.tokensIn resp.tokensOut with
  | none => simp
  | some cost => simp

/-- If the gate-and-validate stage reports `ALL_PROVIDERS_FAILED`, the
run went through the user-message stage, so the session touch has
happened. -/
theorem sendMessageCore_allfail_sessions (tenantId sessionId key content requestId : String)
    (env : Env) (db : DB) (prim : String) (fb : Option String)
    (atts : List ProviderCallAttempt)
    (hres : (sendMessageCore tenantId sessionId key content requestId env db).1
        = .err (.allProvidersFailed prim fb atts)) :
    (sendMessageCore tenantId sessionId key content requestId env db).2.sessions
      = db.sessions.map
          (fun s => if s.id == sessionId then { s with lastActivityAt := env.now } else s) := by
  revert hres
  simp only [sendMessageCore, generateIdempotencyId, generateId, IdempotencyRepo.create]
  cases hl : IdempotencyRepo.lookup tenantId "send_message" key
      ({ db with gensym := db.gensym + 1 }) with
  | some ex =>
      dsimp only []
      cases hr : ex.responseJson with
      | some stored => intro hres; exact absurd hres (by simp)
      | none =>
          cases hs : SessionRepo.findById tenantId sessionId
              ({ db with gensym := db.gensym + 1 }) with
          | none => intro hres; exact absurd hres (by simp)
          | some sess =>
              dsimp only []
              cases ha : AgentRepo.findById tenantId sess.agentId
                  ({ db with gensym := db.gensym + 1 }) with
              | none => intro hres; exact absurd hres (by simp)
              | some agent =>
                  intro hres
                  rw [sendMessageWithAgent_sessions]
  | none =>
      dsimp only []
      cases hs : SessionRepo.findById tenantId sessionId
          ({ db with
              idempotencyRecords := db.idempotencyRecords
                ++ [⟨"idem_" ++ toString db.gensym, tenantId, "send_message", key,
                    some sessionId,
                    computeRequestHash tenantId sessionId content none env.nowIso,
                    none, env.now⟩]
              gensym := db.gensym + 1 }) with
      | none => intro hres; exact absurd hres (by simp)
      | some sess =>
          dsimp only []
          cases ha : AgentRepo.findById tenantId sess.agentId
              ({ db with
                  idempotencyRecords := db.idempotencyRecords
                    ++ [⟨"idem_" ++ toString db.gensym, tenantId, "send_message", key,
                        some sessionId,
                        computeRequestHash tenantId sessionId content none env.nowIso,
                        none, env.now⟩]
                  gensym := db.gensym + 1 }) with
          | none => intro hres; exact absurd hres (by simp)
          | some agent =>
              intro hres
              rw [sendMessageWithAgent_sessions]

/-- Any run that ends in `ALL_PROVIDERS_FAILED` has already touched the
session's `lastActivityAt` (the update precedes the vendor calls). -/
theorem sendMessage_allfail_sessions (tenantId sessionId : String)
    (idempotencyKey : Option String) (content requestId : String)
    (env : Env) (db : DB) (prim : String) (fb : Option String)
    (atts : List ProviderCallAttempt)
    (hres : (sendMessage tenantId sessionId idempotencyKey content requestId env db).1
        = .err (.allProvidersFailed prim fb atts)) :
    (sendMessage tenantId sessionId idempotencyKey content requestId env db).2.sessions
      = db.sessions.map
          (fun s => if s.id == sessionId then { s with lastActivityAt := env.now } else s) := by
  revert hres
  cases idempotencyKey with
  | none => intro hres; exact absurd hres (by simp [sendMessage])
  | some key =>
      simp only [sendMessage]
      by_cases hk : key = ""
      · rw [if_pos hk]
        intro hres
        exact absurd hres (by simp)
      · rw [if_neg hk]
        cases hl : IdempotencyRepo.lookup tenantId "send_message" key db with
        | some ex =>
            dsimp only []
            cases hr : ex.responseJson with
            | some stored => intro hres; exact absurd hres (by simp)
            | none =>
                dsimp only []
                exact sendMessageCore_allfail_sessions tenantId sessionId key content
                  requestId env db prim fb atts
        | none =>
            dsimp only []
            exact sendMessageCore_allfail_sessions tenantId sessionId key content
              requestId env db prim fb atts

/-! ## Claim C10 -/

/-- C10: `sendMessage` modifies session rows only in their
`lastActivityAt` field (count, ids, tenants, agents, customers, status,
metadata and creation times are all preserved), and every run that ends
in `ALL_PROVIDERS_FAILED` has nonetheless set the target session's
`lastActivityAt` to the send's clock instant — the touch happens after
the user-message append and before any vendor call. -/
theorem claimC10_session_frame (tenantId sessionId : String)
    (idempotencyKey : Option String) (content requestId : String)
    (env : Env) (db : DB) :
    ((sendMessage tenantId sessionId idempotencyKey content requestId env db).2.sessions).length
        = db.sessions.length
    ∧ (∀ s' ∈ (sendMessage tenantId sessionId idempotencyKey content requestId env db).2.sessions,
        ∃ s0 ∈ db.sessions,
          s'.id = s0.id ∧ s'.tenantId = s0.tenantId ∧ s'.agentId = s0.agentId
          ∧ s'.customerId = s0.customerId ∧ s'.status = s0.status
          ∧ s'.metadataJson = s0.metadataJson ∧ s'.createdAt = s0.createdAt)
    ∧ (∀ prim fb atts,
        (sendMessage tenantId sessionId idempotencyKey content requestId env db).1
            = .err (.allProvidersFailed prim fb atts) →
        (sendMessage tenantId sessionId idempotencyKey content requestId env db).2.sessions
            = db.sessions.map
                (fun s => if s.id == sessionId then { s with lastActivityAt := env.now } else s)
          ∧ ∀ s' ∈ (sendMessage tenantId sessionId idempotencyKey content requestId env db).2.sessions,
              s'.id = sessionId → s'.lastActivityAt = env.now) := by
  have hd := sendMessage_sessions tenantId sessionId idempotencyKey content requestId env db
  refine ⟨?_, ?_, ?_⟩
  · rcases hd with h | h
    · rw [h]
    · rw [h]
      simp
  · intro s' hs'
    rcases hd with h | h
    · rw [h] at hs'
      exact ⟨s', hs', rfl, rfl, rfl, rfl, rfl, rfl, rfl⟩
    · rw [h] at hs'
      obtain ⟨s0, hs0, rfl⟩ := List.mem_map.mp hs'
      by_cases hid : (s0.id == sessionId) = true
      · refine ⟨s0, hs0, ?_⟩
        simp [hid]
      · refine ⟨s0, hs0, ?_⟩
        simp [hid]
  · intro prim fb atts hres
    have h := sendMessage_allfail_sessions tenantId sessionId idempotencyKey content
      requestId env db prim fb atts hres
    refine ⟨h, ?_⟩
    intro s' hs' hid
    rw [h] at hs'
    obtain ⟨s0, hs0, rfl⟩ := List.mem_map.mp hs'
    by_cases h0 : (s0.id == sessionId) = true
    · simp [h0]
    · rw [if_neg h0] at hid ⊢
      exact absurd (by simp [hid] : (s0.id == sessionId) = true) h0

set_option maxRecDepth 10000 in
/-- C10 witness: in the concrete failing run against an always-503
vendor, the session's `lastActivityAt` has been advanced to the send's
clock instant even though the send failed. -/
theorem claimC10_session_frame_witness :
    (sendMessage "t1" "s1" (some "K") "hello" "req1" fixtureEnvFail fixtureDb).2.sessions
      = fixtureDb.sessions.map
          (fun s => if s.id == "s1" then { s with lastActivityAt := 10 } else s) :=
  ((claimC10_session_frame "t1" "s1" (some "K") "hello" "req1" fixtureEnvFail
      fixtureDb).2.2 "vendorA" none
    [⟨"vendorA", .failed, some 503, 5, 0, some "SERVER_ERROR", some "boom"⟩,
     ⟨"vendorA", .failed, some 503, 5, 1, some "SERVER_ERROR", some "boom"⟩,
     ⟨"vendorA", .failed, some 503, 5, 2, some "SERVER_ERROR", some "boom"⟩]
    (by decide)).1

/-! ## Claim C9 -/

/-- C9 counterexample: not every core write is filtered by the calling
tenant.  `SessionRepo.updateLastActivity` takes no tenant and updates
by session id alone: on a store whose only session belongs to `t2`, the
update invoked on behalf of any other tenant (here `t1`) still rewrites
`t2`'s row, so the claimed per-operation tenant filter is violated. -/
theorem claimC9_counterexample :
    ¬ (∀ (tenantId sessionId : String) (now : Nat) (db : DB),
        ∀ s ∈ (SessionRepo.updateLastActivity sessionId now db).sessions,
          s ∈ db.sessions ∨ s.tenantId = tenantId) := by
  intro hclaim
  rcases hclaim "t1" "s1" 7 dbOtherTenant
      ⟨"s1", "t2", "a9", "c", "active", "", 0, 7⟩ (by decide) with h | h
  · exact absurd h (by decide)
  · exact absurd h (by decide)

/-- `writesScoped` is reflexive. -/
theorem writesScoped_refl (t : String) (db : DB) : writesScoped t db db :=
  ⟨fun _ hm => .inl hm, fun _ hu => .inl hu, fun _ he => .inl he,
   fun _ hr => .inl hr, fun _ hs => .inl hs, rfl⟩

/-- `writesScoped` composes. -/
theorem writesScoped_trans (t : String) (db1 db2 db3 : DB)
    (h12 : writesScoped t db1 db2) (h23 : writesScoped t db2 db3) :
    writesScoped t db1 db3 := by
  obtain ⟨m12, u12, e12, r12, s12, a12⟩ := h12
  obtain ⟨m23, u23, e23, r23, s23, a23⟩ := h23
  refine ⟨fun x hx => ?_, fun x hx => ?_, fun x hx => ?_, fun x hx => ?_,
    fun x hx => ?_, a23.trans a12⟩
  · rcases m23 x hx with h | h
    · exact m12 x h
    · exact .inr h
  · rcases u23 x hx with h | h
    · exact u12 x h
    · exact .inr h
  · rcases e23 x hx with h | h
    · exact e12 x h
    · exact .inr h
  · rcases r23 x hx with h | h
    · exact r12 x h
    · exact .inr h
  · rcases s23 x hx with h | h
    · exact s12 x h
    · exact .inr h

/-- The orchestrator's writes are scoped to the context's tenant. -/
theorem callProviderWithFallback_scoped (p : AdapterModel) (fb : Option AdapterModel)
    (req : ProviderRequest) (cfg : RetryConfig) (ctx : CallContext) (db : DB) :
    writesScoped ctx.tenantId db (callProviderWithFallback p fb req cfg ctx db).2 := by
  refine ⟨?_, ?_, callProviderWithFallback_events_scoped p fb req cfg ctx db, ?_, ?_, ?_⟩
  · intro m hm
    rw [callProviderWithFallback_messages] at hm
    exact .inl hm
  · intro u hu
    rw [callProviderWithFallback_usageEvents] at hu
    exact .inl hu
  · intro r hr
    rw [callProviderWithFallback_idem] at hr
    exact .inl hr
  · intro s hs
    rw [callProviderWithFallback_sessions] at hs
    exact .inl hs
  · exact callProviderWithFallback_agents p fb req cfg ctx db

/-- The completion stage's writes (assistant message, usage event,
idempotency completion) are scoped to the calling tenant. -/
theorem sendMessageComplete_scoped (tenantId sessionId key requestId : String)
    (env : Env) (db : DB) (agent : AgentRow) (pr : ProviderCallResult)
    (resp : NormalizedResponse) :
    writesScoped tenantId db
      (sendMessageComplete tenantId sessionId key requestId env db agent pr resp).2 := by
  simp only [sendMessageComplete, generateMessageId, generateEventId, generateId,
    MessageRepo.create, UsageEventRepo.create, IdempotencyRepo.updateResponse]
  cases hc : calculateCost pr.providerUsed resp.tokensIn resp.tokensOut with
  | none =>
      dsimp only []
      refine ⟨?_, fun u hu => .inl hu, fun e he => .inl he, fun r hr => .inl hr,
        fun s hs => .inl hs, rfl⟩
      intro m hm
      rcases List.mem_append.mp hm with h | h
      · exact .inl h
      · simp at h
        subst h
        exact .inr rfl
  | some cost =>
      dsimp only []
      refine ⟨?_, ?_, fun e he => .inl he, ?_, fun s hs => .inl hs, rfl⟩
      · intro m hm
        rcases List.mem_append.mp hm with h | h
        · exact .inl h
        · simp at h
          subst h
          exact .inr rfl
      · intro u hu
        rcases List.mem_append.mp hu with h | h
        · exact .inl h
        · simp at h
          subst h
          exact .inr rfl
      · intro r hr
        obtain ⟨r0, hr0, heq⟩ := List.mem_map.mp hr
        by_cases hm : IdempotencyRepo.matchesKey tenantId "send_message" key r0 = true
        · rw [if_pos hm] at heq
          refine .inr ?_
          rw [← heq]
          have := (Bool.and_eq_true _ _).mp ((Bool.and_eq_true _ _).mp hm).1
          exact eq_of_beq this.1
        · rw [if_neg hm] at heq
          exact .inl (heq ▸ hr0)

/-- The user-message stage's writes are scoped to the calling tenant,
provided the target session is owned by that tenant and session ids
determine the tenant. -/
theorem sendMessageWithAgent_scoped (tenantId sessionId key content requestId : String)
    (env : Env) (db : DB) (sess : SessionRow) (agent : AgentRow)
    (hsess0 : ∃ s0 ∈ db.sessions, s0.id = sessionId ∧ s0.tenantId = tenantId)
    (huniq : ∀ r1 ∈ db.sessions, ∀ r2 ∈ db.sessions, r1.id = r2.id → r1.tenantId = r2.tenantId) :
    writesScoped tenantId db
      (sendMessageWithAgent tenantId sessionId key content requestId env db sess agent).2 := by
  have hpre : writesScoped tenantId db
      ({ db with
          sessions := db.sessions.map
            (fun s => if s.id == sessionId then { s with lastActivityAt := env.now } else s)
          messages := db.messages
            ++ [⟨"msg_" ++ toString db.gensym, tenantId, sessionId, "user", content, env.now⟩]
          gensym := db.gensym + 1 }) := by
    refine ⟨?_, fun u hu => .inl hu, fun e he => .inl he, fun r hr => .inl hr, ?_, rfl⟩
    · intro m hm
      rcases List.mem_append.mp hm with h | h
      · exact .inl h
      · simp at h
        subst h
        exact .inr rfl
    · intro s hs
      obtain ⟨s0, hs0, heq⟩ := List.mem_map.mp hs
      by_cases hid : (s0.id == sessionId) = true
      · rw [if_pos hid] at heq
        refine .inr ?_
        rw [← heq]
        obtain ⟨sw, hsw, hswid, hswt⟩ := hsess0
        have h0 : s0.tenantId = sw.tenantId :=
          huniq s0 hs0 sw hsw (by rw [eq_of_beq hid, hswid])
        simpa using h0.trans hswt
      · rw [if_neg hid] at heq
        exact .inl (heq ▸ hs0)
  simp only [sendMessageWithAgent, generateMessageId, generateId, MessageRepo.create,
    SessionRepo.updateLastActivity]
  cases hpa : getProviderAdapter env.oracle agent.primaryProvider with
  | none => exact hpre
  | some pA =>
      dsimp only []
      cases hfb : resolveFallbackAdapter env.oracle agent.fallbackProvider with
      | error nm => exact hpre
      | ok fbOpt =>
          dsimp only []
          split
          · exact writesScoped_trans tenantId db _ _ hpre
              (callProviderWithFallback_scoped _ _ _ _ _ _)
          · split
            · exact writesScoped_trans tenantId db _ _ hpre
                (callProviderWithFallback_scoped _ _ _ _ _ _)
            · exact writesScoped_trans tenantId db _ _
                (writesScoped_trans tenantId db _ _ hpre
                  (callProviderWithFallback_scoped _ _ _ _ _ _))
                (sendMessageComplete_scoped _ _ _ _ _ _ _ _ _)

/-- The gate-and-validate stage's writes are scoped to the calling
tenant once session ids determine the tenant. -/
theorem sendMessageCore_scoped (tenantId sessionId key content requestId : String)
    (env : Env) (db : DB)
    (huniq : ∀ r1 ∈ db.sessions, ∀ r2 ∈ db.sessions, r1.id = r2.id → r1.tenantId = r2.tenantId) :
    writesScoped tenantId db
      (sendMessageCore tenantId sessionId key content requestId env db).2 := by
  have hg : writesScoped tenantId db ({ db with gensym := db.gensym + 1 }) :=
    ⟨fun _ hm => .inl hm, fun _ hu => .inl hu, fun _ he => .inl he,
     fun _ hr => .inl hr, fun _ hs => .inl hs, rfl⟩
  have hins : writesScoped tenantId db
      ({ db with
          idempotencyRecords := db.idempotencyRecords
            ++ [⟨"idem_" ++ toString db.gensym, tenantId, "send_message", key,
                some sessionId,
                computeRequestHash tenantId sessionId content none env.nowIso,
                none, env.now⟩]
          gensym := db.gensym + 1 }) := by
    refine ⟨fun _ hm => .inl hm, fun _ hu => .inl hu, fun _ he => .inl he, ?_,
      fun _ hs => .inl hs, rfl⟩
    intro r hr
    rcases List.mem_append.mp hr with h | h
    · exact .inl h
    · simp at h
      subst h
      exact .inr rfl
  simp only [sendMessageCore, generateIdempotencyId, generateId, IdempotencyRepo.create]
  cases hl : IdempotencyRepo.lookup tenantId "send_message" key
      ({ db with gensym := db.gensym + 1 }) with
  | some ex =>
      dsimp only []
      cases hr : ex.responseJson with
      | some stored => exact hg
      | none =>
          cases hs : SessionRepo.findById tenantId sessionId
              ({ db with gensym := db.gensym + 1 }) with
          | none => exact hg
          | some sess =>
              dsimp only []
              cases ha : AgentRepo.findById tenantId sess.agentId
                  ({ db with gensym := db.gensym + 1 }) with
              | none => exact hg
              | some agent =>
                  have hs' : db.sessions.find?
                      (fun s => s.id == sessionId && s.tenantId == tenantId) = some sess := hs
                  have hp := List.find?_some hs'
                  have hmem := List.mem_of_find?_eq_some hs'
                  have hsess0 : ∃ s0 ∈ db.sessions, s0.id = sessionId ∧ s0.tenantId = tenantId :=
                    ⟨sess, hmem, eq_of_beq ((Bool.and_eq_true _ _).mp hp).1,
                      eq_of_beq ((Bool.and_eq_true _ _).mp hp).2⟩
                  exact writesScoped_trans tenantId db _ _ hg
                    (sendMessageWithAgent_scoped tenantId sessionId key content requestId
                      env _ sess agent hsess0 huniq)
  | none =>
      dsimp only []
      cases hs : SessionRepo.findById tenantId sessionId
          ({ db with
              idempotencyRecords := db.idempotencyRecords
                ++ [⟨"idem_" ++ toString db.gensym, tenantId, "send_message", key,
                    some sessionId,
                    computeRequestHash tenantId sessionId content none env.nowIso,
                    none, env.now⟩]
              gensym := db.gensym + 1 }) with
      | none => exact hins
      | some sess =>
          dsimp only []
          cases ha : AgentRepo.findById tenantId sess.agentId
              ({ db with
                  idempotencyRecords := db.idempotencyRecords
                    ++ [⟨"idem_" ++ toString db.gensym, tenantId, "send_message", key,
                        some sessionId,
                        computeRequestHash tenantId sessionId content none env.nowIso,
                        none, env.now⟩]
                  gensym := db.gensym + 1 }) with
          | none => exact hins
          | some agent =>
              have hs' : db.sessions.find?
                  (fun s => s.id == sessionId && s.tenantId == tenantId) = some sess := hs
              have hp := List.find?_some hs'
              have hmem := List.mem_of_find?_eq_some hs'
              have hsess0 : ∃ s0 ∈ db.sessions, s0.id = sessionId ∧ s0.tenantId = tenantId :=
                ⟨sess, hmem, eq_of_beq ((Bool.and_eq_true _ _).mp hp).1,
                  eq_of_beq ((Bool.and_eq_true _ _).mp hp).2⟩
              exact writesScoped_trans tenantId db _ _ hins
                (sendMessageWithAgent_scoped tenantId sessionId key content requestId
                  env _ sess agent hsess0 huniq)

/-- C9 amended: every core read (`listBySession`, the session, agent
and idempotency lookups) returns only rows of the calling tenant, and
every store mutation of a `sendMessage` run writes only rows of the
calling tenant — `SessionRepo.updateLastActivity` alone carries no
tenant filter, but it is reached only after `SessionRepo.findById`
verified that the session id belongs to the caller, so on stores whose
session ids determine their tenant no foreign row is read or written. -/
theorem claimC9_amended_tenant_isolation :
    (∀ (t sid : String) (db : DB), ∀ m ∈ MessageRepo.listBySession t sid db, m.tenantId = t)
    ∧ (∀ (t aid : String) (db : DB) (a : AgentRow),
        AgentRepo.findById t aid db = some a → a.tenantId = t)
    ∧ (∀ (t sid : String) (db : DB) (s : SessionRow),
        SessionRepo.findById t sid db = some s → s.tenantId = t)
    ∧ (∀ (t sc k : String) (db : DB) (r : IdemRow),
        IdempotencyRepo.lookup t sc k db = some r → r.tenantId = t)
    ∧ (∀ (tenantId sessionId : String) (idempotencyKey : Option String)
        (content requestId : String) (env : Env) (db : DB),
        (∀ r1 ∈ db.sessions, ∀ r2 ∈ db.sessions, r1.id = r2.id → r1.tenantId = r2.tenantId) →
        writesScoped tenantId db
          (sendMessage tenantId sessionId idempotencyKey content requestId env db).2) := by
  refine ⟨?_, ?_, ?_, ?_, ?_⟩
  · intro t sid db m hm
    have := (List.mem_filter.mp hm).2
    exact eq_of_beq ((Bool.and_eq_true _ _).mp this).1
  · intro t aid db a ha
    have := List.find?_some ha
    exact eq_of_beq ((Bool.and_eq_true _ _).mp this).2
  · intro t sid db s hs
    have := List.find?_some hs
    exact eq_of_beq ((Bool.and_eq_true _ _).mp this).2
  · intro t sc k db r hr
    have := List.find?_some hr
    exact eq_of_beq ((Bool.and_eq_true _ _).mp ((Bool.and_eq_true _ _).mp this).1).1
  · intro tenantId sessionId idempotencyKey content requestId env db huniq
    cases idempotencyKey with
    | none => exact writesScoped_refl tenantId db
    | some key =>
        simp only [sendMessage]
        by_cases hk : key = ""
        · rw [if_pos hk]
          exact writesScoped_refl tenantId db
        · rw [if_neg hk]
          cases hl : IdempotencyRepo.lookup tenantId "send_message" key db with
          | some ex =>
              dsimp only []
              cases hr : ex.responseJson with
              | some stored => exact writesScoped_refl tenantId db
              | none =>
                  exact sendMessageCore_scoped tenantId sessionId key content
                    requestId env db huniq
          | none =>
              exact sendMessageCore_scoped tenantId sessionId key content
                requestId env db huniq

/-- C9 amended witness: a concrete successful run of the pipeline
writes only rows of the calling tenant. -/
theorem claimC9_amended_tenant_isolation_witness :
    writesScoped "t1" fixtureDb
      (sendMessage "t1" "s1" (some "K") "hello" "req1" fixtureEnvOk fixtureDb).2 :=
  claimC9_amended_tenant_isolation.2.2.2.2 "t1" "s1" (some "K") "hello" "req1"
    fixtureEnvOk fixtureDb (by decide)

end VocalBridge
